import Mathlib

/-!
# go-api-basic: request logging, health checks and the injector

A shallow embedding of `inject_main.go`:

* `requestLogger.Log` over a model of the zerolog event builder it drives
  (writer, level and sampler gate, chained field setters, hooks, `Msg`);
* `appHealthChecks` over a heap of `sqlhealth` checkers
  (`Polling → Stopped`);
* the provider set declared in `setupApp`, with the graph builder that
  resolves it.

Go's `int64` and `int` values are `Int`; no operation of this file can
overflow (the only arithmetic is one division by 1e6).
-/

namespace GoApiBasic

/-! ## Go strings -/

/-- A Go `string`: a sequence of bytes, not necessarily valid UTF-8. -/
abbrev GoString := List (Fin 256)

/-- The byte of value `n mod 256`. -/
def byte (n : Nat) : Fin 256 := ⟨n % 256, Nat.mod_lt _ (by decide)⟩

/-- ASCII text as a Go string, one byte per character. -/
def ascii (s : String) : GoString := s.toList.map fun c => byte c.toNat

/-- Lower bound of the second byte of a multi-byte rune, by first byte
(the accept ranges of `unicode/utf8`). -/
def acceptLo (b0 : Nat) : Nat := if b0 = 0xE0 then 0xA0 else if b0 = 0xF0 then 0x90 else 0x80

/-- Upper bound of the second byte of a multi-byte rune, by first byte. -/
def acceptHi (b0 : Nat) : Nat := if b0 = 0xED then 0x9F else if b0 = 0xF4 then 0x8F else 0xBF

/-- A continuation byte, `0x80..0xBF`. -/
def isCont (b : Fin 256) : Bool := decide (0x80 ≤ b.val) && decide (b.val ≤ 0xBF)

/-- The second byte lies in the accept range of the first. -/
def isSecond (b0 b1 : Fin 256) : Bool :=
  decide (acceptLo b0.val ≤ b1.val) && decide (b1.val ≤ acceptHi b0.val)

/-- The size `utf8.DecodeRuneInString` reports for a valid rune at the head
of `s`; `0` when the head is not a valid encoding (where Go returns
`RuneError` with size 1) or `s` is empty. -/
def runeLen : GoString → Nat
  | [] => 0
  | b0 :: rest =>
    if b0.val < 0x80 then 1
    else if b0.val < 0xC2 then 0
    else if b0.val < 0xE0 then
      match rest with
      | b1 :: _ => if isSecond b0 b1 then 2 else 0
      | _ => 0
    else if b0.val < 0xF0 then
      match rest with
      | b1 :: b2 :: _ => if isSecond b0 b1 && isCont b2 then 3 else 0
      | _ => 0
    else if b0.val < 0xF5 then
      match rest with
      | b1 :: b2 :: b3 :: _ => if isSecond b0 b1 && isCont b2 && isCont b3 then 4 else 0
      | _ => 0
    else 0

/-- The UTF-8 encoding of U+FFFD, the replacement character. -/
def replacementChar : GoString := [byte 0xEF, byte 0xBF, byte 0xBD]

/-- The loop of zerolog's `AppendString`, read back as a string value: a valid
rune is copied (`skip` counts the bytes of it still to copy), a byte that
starts no valid rune is written as the escape for U+FFFD. -/
def appendStringFrom : Nat → GoString → GoString
  | _, [] => []
  | skip + 1, b :: rest => b :: appendStringFrom skip rest
  | 0, b :: rest =>
    match runeLen (b :: rest) with
    | 0 => replacementChar ++ appendStringFrom 0 rest
    | k + 1 => b :: appendStringFrom k rest

/-- The string value zerolog records for the Go string `s`
(`enc.AppendString`): `s` with every invalid UTF-8 byte replaced by
U+FFFD. The escapes it writes for quotes, backslashes and control characters
read back as the characters themselves. -/
def appendString (s : GoString) : GoString := appendStringFrom 0 s

/-- The loop of `utf8.ValidString`. -/
def validFrom : Nat → GoString → Bool
  | _, [] => true
  | skip + 1, _ :: rest => validFrom skip rest
  | 0, b :: rest =>
    match runeLen (b :: rest) with
    | 0 => false
    | k + 1 => validFrom k rest

/-- `utf8.ValidString`. -/
def ValidString (s : GoString) : Bool := validFrom 0 s

/-! ## time -/

/-- The value `time.Time` as the calendar reading `Format` works from
(`Date`, `Clock`, `Weekday` and `Zone`). `weekday` counts from Sunday = 0,
`month` from January = 0; `zone` is the abbreviation of the zone (empty when
it has none) and `offset` its offset in seconds east of UTC. -/
structure Time where
  year : Int
  month : Fin 12
  day : Nat
  hour : Nat
  minute : Nat
  second : Nat
  weekday : Fin 7
  zone : GoString
  offset : Int
  deriving DecidableEq, Repr

/-- The layout `time.RFC1123`. -/
def RFC1123 : String := "Mon, 02 Jan 2006 15:04:05 MST"

/-- `func appendInt(b []byte, x int, width int) []byte`: a minus sign for a
negative `x`, then the decimal digits, zero-padded to `width`. -/
def appendInt (x : Int) (width : Nat) : GoString :=
  let ds := ascii (Nat.repr x.natAbs)
  (if x < 0 then ascii "-" else []) ++ List.replicate (width - ds.length) (byte 48) ++ ds

/-- Three-letter English day name, as `time.Weekday.String()[:3]`. -/
def shortDayName (d : Fin 7) : GoString :=
  ascii (["Sun", "Mon", "Tue", "Wed", "Thu", "Fri", "Sat"].getD d.val "")

/-- Three-letter English month name, as `time.Month.String()[:3]`. -/
def shortMonthName (m : Fin 12) : GoString :=
  ascii (["Jan", "Feb", "Mar", "Apr", "May", "Jun", "Jul", "Aug", "Sep", "Oct",
    "Nov", "Dec"].getD m.val "")

/-- The chunk `MST` of a layout: the zone abbreviation, or, when the zone has
none, the offset as `±hhmm`. -/
def zoneText (t : Time) : GoString :=
  if t.zone ≠ [] then t.zone
  else
    let zone := Int.tdiv t.offset 60
    (if zone < 0 then ascii "-" else ascii "+") ++
      appendInt ((zone.natAbs / 60 : Nat) : Int) 2 ++ appendInt ((zone.natAbs % 60 : Nat) : Int) 2

/-- The layout interpreter of `Time.Format`, for the reference chunks that
occur in `RFC1123` (`Mon`, `02`, `Jan`, `2006`, `15`, `04`, `05`, `MST`);
every other character of the (ASCII) layout is copied. -/
def formatLayout (t : Time) : List Char → GoString
  | 'M' :: 'o' :: 'n' :: rest => shortDayName t.weekday ++ formatLayout t rest
  | 'J' :: 'a' :: 'n' :: rest => shortMonthName t.month ++ formatLayout t rest
  | 'M' :: 'S' :: 'T' :: rest => zoneText t ++ formatLayout t rest
  | '2' :: '0' :: '0' :: '6' :: rest => appendInt t.year 4 ++ formatLayout t rest
  | '0' :: '2' :: rest => appendInt t.day 2 ++ formatLayout t rest
  | '1' :: '5' :: rest => appendInt t.hour 2 ++ formatLayout t rest
  | '0' :: '4' :: rest => appendInt t.minute 2 ++ formatLayout t rest
  | '0' :: '5' :: rest => appendInt t.second 2 ++ formatLayout t rest
  | c :: rest => byte c.toNat :: formatLayout t rest
  | [] => []

/-- `func (t Time) Format(layout string) string`. -/
def Time.Format (t : Time) (layout : String) : GoString := formatLayout t layout.toList

/-- A `time.Duration`: a count of nanoseconds (`int64`). -/
abbrev Duration := Int

/-- `func (d Duration) Milliseconds() int64 { return int64(d) / 1e6 }`;
Go's `/` on integers truncates toward zero. -/
def Duration.Milliseconds (d : Duration) : Int := Int.tdiv d 1000000

/-! ## trace identifiers -/

/-- Lower-case hexadecimal digit. -/
def hexDigit (n : Nat) : Fin 256 := (ascii "0123456789abcdef").getD n (byte 63)

/-- `fmt.Sprintf("%02x", b[:])` on a byte slice. -/
def hexString (bs : List (Fin 256)) : GoString :=
  bs.flatMap fun b => [hexDigit (b.val / 16), hexDigit (b.val % 16)]

/-- Value of a lower-case hexadecimal digit. -/
def hexVal (c : Fin 256) : Option Nat :=
  if 48 ≤ c.val ∧ c.val ≤ 57 then some (c.val - 48)
  else if 97 ≤ c.val ∧ c.val ≤ 102 then some (c.val - 87)
  else none

/-- Reads a lower-case hexadecimal string back into bytes. -/
def unhex : GoString → Option (List (Fin 256))
  | [] => some []
  | [_] => none
  | hi :: lo :: rest =>
    match hexVal hi, hexVal lo, unhex rest with
    | some h, some l, some bs => some (byte (h * 16 + l) :: bs)
    | _, _, _ => none

/-- `trace.TraceID`, a `[16]byte`. -/
structure TraceID where
  bytes : List (Fin 256)
  len : bytes.length = 16

/-- `trace.SpanID`, an `[8]byte`. -/
structure SpanID where
  bytes : List (Fin 256)
  len : bytes.length = 8

/-- `func (t TraceID) String() string`. -/
def TraceID.String (t : TraceID) : GoString := hexString t.bytes

/-- `func (s SpanID) String() string`. -/
def SpanID.String (s : SpanID) : GoString := hexString s.bytes

/-! ## requestlog.Entry -/

/-- `requestlog.Entry`, the fields `Log` reads. -/
structure Entry where
  ReceivedTime : Time
  RequestMethod : GoString
  RequestURL : GoString
  RequestHeaderSize : Int
  RequestBodySize : Int
  UserAgent : GoString
  Referer : GoString
  Proto : GoString
  RemoteIP : GoString
  ServerIP : GoString
  Status : Int
  ResponseHeaderSize : Int
  ResponseBodySize : Int
  Latency : Duration
  TraceID : TraceID
  SpanID : SpanID

/-! ## zerolog -/

/-- `zerolog.Level` (an `int8`). -/
abbrev Level := Int

def TraceLevel : Level := -1
def DebugLevel : Level := 0
def InfoLevel : Level := 1
def WarnLevel : Level := 2
def ErrorLevel : Level := 3
def FatalLevel : Level := 4
def PanicLevel : Level := 5
def NoLevel : Level := 6
def Disabled : Level := 7

/-- The value of one field of a structured record, tagged with the setter
that wrote it (`Str`, `Int64`, `Int`). -/
inductive FieldValue where
  | str (s : GoString)
  | int64 (i : Int)
  | int (i : Int)
  deriving DecidableEq, Repr

/-- One key/value pair of a record. -/
abbrev Field := String × FieldValue

/-- The package-level settings of zerolog: the global level
(`SetGlobalLevel`) and the switch `DisableSampling`. -/
structure Globals where
  level : Level
  disableSampling : Bool
  deriving DecidableEq, Repr

/-- A `zerolog.Sampler`: `Sample(lvl)` answers from the sampler's own state
and moves it on. -/
structure zerolog.Sampler where
  state : Nat
  sample : Nat → Level → Bool × Nat

/-- `zerolog.BasicSampler{N: n}` with its counter: every `n`-th event is
kept, starting with the first. -/
def zerolog.BasicSampler (n : Nat) (counter : Nat) : zerolog.Sampler where
  state := counter
  sample := fun c _ =>
    if n = 1 then (true, c)
    else if n = 0 then (false, c)
    else ((c + 1) % 4294967296 % n == 1, (c + 1) % 4294967296)

/-- What one run of a `zerolog.Hook` does to the event it is given: the
fields it adds, and whether it calls `Discard`. -/
structure HookResult where
  fields : List Field
  discard : Bool

/-- A `zerolog.Hook`: `Run(e, level, msg)`. An event offers a hook no way to
read or remove what it already holds. -/
abbrev Hook := Level → String → HookResult

/-- `zerolog.Logger`: whether its writer is non-nil, its minimum level, its
sampler (nil is `none`), the context fields every event of it starts from,
and its hooks. -/
structure Logger where
  hasWriter : Bool
  level : Level
  sampler : Option zerolog.Sampler
  context : List Field
  hooks : List Hook

/-- `zerolog.Event` under construction: its level, the fields written so far
(the logger's context first) and the hooks to run at `Msg`; a nil `*Event`
is `none`. -/
structure Event where
  level : Level
  fields : List Field
  hooks : List Hook

/-- What the log sink receives from one `Msg`: the level, all key/value
pairs in the order written, and the message. -/
structure Record where
  level : Level
  fields : List Field
  message : String
  deriving DecidableEq, Repr

/-- `func (l *Logger) should(lvl Level) bool`, with the logger as the call
leaves it: no event without a writer, nor below the logger's level or the
global level; past these the sampler decides, when there is one and sampling
is not disabled, and its state moves on. -/
def Logger.should (g : Globals) (l : Logger) (lvl : Level) : Bool × Logger :=
  if !l.hasWriter then (false, l)
  else if decide (lvl < l.level) || decide (lvl < g.level) then (false, l)
  else
    match l.sampler with
    | none => (true, l)
    | some s =>
      if !g.disableSampling then
        ((s.sample s.state lvl).1, { l with sampler := some { s with state := (s.sample s.state lvl).2 } })
      else (true, l)

/-- `func (l *Logger) newEvent(level Level, ...) *Event`: nil when the level
is not enabled; otherwise the event starts from the logger's context and
carries its hooks. -/
def Logger.newEvent (g : Globals) (l : Logger) (lvl : Level) : Option Event × Logger :=
  if (l.should g lvl).1 then (some ⟨lvl, l.context, l.hooks⟩, (l.should g lvl).2)
  else (none, (l.should g lvl).2)

/-- `func (l *Logger) Info() *Event`. -/
def Logger.Info (g : Globals) (l : Logger) : Option Event × Logger := l.newEvent g InfoLevel

/-- Append one field; a nil event stays nil. -/
def Event.append (e : Option Event) (k : String) (v : FieldValue) : Option Event :=
  e.map fun ev => { ev with fields := ev.fields ++ [(k, v)] }

/-- `func (e *Event) Str(key, val string) *Event`: the value goes through
`AppendString`. -/
def Event.Str (e : Option Event) (key : String) (val : GoString) : Option Event :=
  Event.append e key (.str (appendString val))

/-- `func (e *Event) Int64(key string, i int64) *Event`. -/
def Event.Int64 (e : Option Event) (key : String) (i : Int) : Option Event :=
  Event.append e key (.int64 i)

/-- `func (e *Event) Int(key string, i int) *Event`. -/
def Event.Int (e : Option Event) (key : String) (i : Int) : Option Event :=
  Event.append e key (.int i)

/-- The loop `for _, hook := range e.ch { hook.Run(e, e.level, msg) }` of
`Event.msg`: the fields the hooks add, in order, and the level of the event
after them (`Discard` sets it to `Disabled`). -/
def runHooks : List Hook → Level → String → List Field × Level
  | [], lvl, _ => ([], lvl)
  | h :: hs, lvl, msg =>
    let r := h lvl msg
    let rest := runHooks hs (if r.discard then Disabled else lvl) msg
    (r.fields ++ rest.1, rest.2)

/-- `func (e *Event) Msg(msg string)`: runs the hooks, then sends the event to
the sink; on a nil event, and on an event a hook has discarded, nothing is
written. -/
def Event.Msg (e : Option Event) (msg : String) (sink : List Record) : List Record :=
  match e with
  | none => sink
  | some ev =>
    let hooked := runHooks ev.hooks ev.level msg
    if hooked.2 ≠ Disabled then sink ++ [⟨ev.level, ev.fields ++ hooked.1, msg⟩] else sink

/-! ## requestLogger -/

/-- `type requestLogger struct { logger zerolog.Logger }`. -/
structure requestLogger where
  logger : Logger

/-- `func (rl requestLogger) Log(e *requestlog.Entry)`. The effects are
threaded explicitly: `sink` holds the records written so far; the result is
the request logger as the call leaves it (its sampler may have moved on) and
the records written once `Log` returns. `g` holds zerolog's package-level
settings. -/
def requestLogger.Log (g : Globals) (rl : requestLogger) (e : Entry)
    (sink : List Record) : requestLogger × List Record :=
  let started := rl.logger.Info g
  let ev := started.1
  let ev := Event.Str ev "received_time" (e.ReceivedTime.Format RFC1123)
  let ev := Event.Str ev "request_method" e.RequestMethod
  let ev := Event.Str ev "request_url" e.RequestURL
  let ev := Event.Int64 ev "request_header_size" e.RequestHeaderSize
  let ev := Event.Int64 ev "request_body_size" e.RequestBodySize
  let ev := Event.Str ev "user_agent" e.UserAgent
  let ev := Event.Str ev "referer" e.Referer
  let ev := Event.Str ev "protocol" e.Proto
  let ev := Event.Str ev "remote_ip" e.RemoteIP
  let ev := Event.Str ev "server_ip" e.ServerIP
  let ev := Event.Int ev "status" e.Status
  let ev := Event.Int64 ev "response_header_size" e.ResponseHeaderSize
  let ev := Event.Int64 ev "response_body_size" e.ResponseBodySize
  let ev := Event.Int64 ev "latency in millis" e.Latency.Milliseconds
  let ev := Event.Str ev "trace_id" e.TraceID.String
  let ev := Event.Str ev "span_id" e.SpanID.String
  ({ logger := started.2 }, Event.Msg ev "request received" sink)

/-- `func newRequestLogger(l zerolog.Logger) *requestLogger`. -/
def newRequestLogger (l : Logger) : requestLogger := { logger := l }

/-- Whether an info event of `l` with message `msg` reaches the sink: the
writer is non-nil, the logger's level and the global level are at most
`info`, the sampler (when there is one and sampling is not disabled) keeps
the event, and no hook discards it. -/
def Logger.writesInfo (g : Globals) (l : Logger) (msg : String) : Bool :=
  l.hasWriter && decide (l.level ≤ InfoLevel) && decide (g.level ≤ InfoLevel) &&
  (match l.sampler with
   | none => true
   | some s => g.disableSampling || (s.sample s.state InfoLevel).1) &&
  l.hooks.all fun h => !(h InfoLevel msg).discard

/-- Package-level settings that let every level through. -/
def openGlobals : Globals := ⟨TraceLevel, false⟩

/-- A logger with a writer, no sampler, no context and no hooks, like
`zerolog.New(w).Level(lvl)`. -/
def plainLogger (lvl : Level) : Logger := ⟨true, lvl, none, [], []⟩

/-- A hook that stamps each event, like the one `With().Timestamp()`
installs. -/
def timestampHook : Hook := fun _ _ => ⟨[("time", .int64 1136239445)], false⟩

/-- A sample entry: a streamed response (body size unknown, `-1`) that took
1500.4 ms. -/
def sampleEntry : Entry where
  ReceivedTime := ⟨2006, 0, 2, 15, 4, 5, 1, ascii "MST", -25200⟩
  RequestMethod := ascii "GET"
  RequestURL := ascii "/api/v1/movies"
  RequestHeaderSize := 120
  RequestBodySize := 0
  UserAgent := ascii "curl/7.64.1"
  Referer := []
  Proto := ascii "HTTP/1.1"
  RemoteIP := ascii "10.0.0.7"
  ServerIP := ascii "10.0.0.1"
  Status := 200
  ResponseHeaderSize := 96
  ResponseBodySize := -1
  Latency := 1500400000
  TraceID := ⟨List.replicate 16 171, rfl⟩
  SpanID := ⟨List.replicate 8 205, rfl⟩

/-- The sample entry with a user agent that is not valid UTF-8 (the byte
`0xFF` after `a`). -/
def rawAgentEntry : Entry := { sampleEntry with UserAgent := [97, 255] }

/-! ## sqlhealth -/

/-- A `*sql.DB` handle. -/
structure DB where
  id : Nat
  deriving DecidableEq, Repr

/-- Life cycle of one health checker. -/
inductive CheckerState where
  | Initialized
  | Polling
  | Stopped
  deriving DecidableEq, Repr

/-- A `sqlhealth.Checker`: the handle it probes and where its polling
goroutine stands. -/
structure SqlChecker where
  db : DB
  state : CheckerState
  deriving DecidableEq, Repr

/-- A `*sqlhealth.Checker`, used as a `health.Checker`: the address of the
checker in the heap. -/
abbrev CheckerRef := Nat

/-- What the process does to its resources, as seen from outside. -/
inductive Effect where
  | checkerStarted (c : CheckerRef)
  | checkerStopped (c : CheckerRef)
  | dbOpened (db : DB)
  | dbReleased (db : DB)
  deriving DecidableEq, Repr

/-- The mutable state the injector works on: the heap of checkers and the
effects performed so far, oldest first. -/
structure World where
  checkers : List SqlChecker
  trace : List Effect
  deriving DecidableEq, Repr

/-- State of the checker at `c`, when there is one. -/
def World.checkerState (w : World) (c : CheckerRef) : Option CheckerState :=
  w.checkers[c]?.map (·.state)

/-- `func New(db *sql.DB) *Checker`: allocates the checker and starts its
polling goroutine (`go c.waitForDatabase(ctx, db)`). -/
def sqlhealth.New (db : DB) (w : World) : CheckerRef × World :=
  let c := w.checkers.length
  (c, { checkers := w.checkers ++ [⟨db, .Polling⟩],
        trace := w.trace ++ [.checkerStarted c] })

/-- `func (c *Checker) Stop()`: cancels the polling goroutine and waits for
it to exit. -/
def sqlhealth.Stop (c : CheckerRef) (w : World) : World :=
  match w.checkers[c]? with
  | none => w
  | some chk =>
    { checkers := w.checkers.set c { chk with state := .Stopped },
      trace := w.trace ++ [.checkerStopped c] }

/-- A cleanup callback, `func()`. -/
abbrev Cleanup := World → World

/-- `datastore.Name`. -/
structure Name where
  n : Int
  deriving DecidableEq, Repr

/-- `func appHealthChecks(n datastore.Name, db *sql.DB) ([]health.Checker, func())`. -/
def appHealthChecks (_n : Name) (db : DB) (w : World) :
    (List CheckerRef × Cleanup) × World :=
  let (dbCheck, w') := sqlhealth.New db w
  let list := [dbCheck]
  ((list, fun w => sqlhealth.Stop dbCheck w), w')

/-! ## values that flow through the provider graph -/

/-- A `context.Context`. -/
structure Context where
  id : Nat
  deriving DecidableEq, Repr

/-- `app.EnvName`. -/
structure EnvName where
  n : Int
  deriving DecidableEq, Repr

/-- `datastore.PGDatasourceName`. -/
structure PGDatasourceName where
  dsn : String
  deriving DecidableEq, Repr

/-- Modelled from the spec: `datastore.Datastore` is declared outside
`inject_main.go`; the datastore adapter "wraps the raw database handle". -/
structure Datastore where
  db : DB
  deriving DecidableEq, Repr

/-- Modelled from the spec: `app.Application` is declared outside
`inject_main.go`; it is composed from the environment name, the datastore
capability and the logger (`Datastore,Logger → App`). A nil interface value
is `none`. -/
structure Application where
  envName : EnvName
  datastorer : Option Datastore
  logger : Logger

/-- Modelled from the spec: `handler.AppHandler` is declared outside
`inject_main.go`; it wraps the application. -/
structure AppHandler where
  app : Application

/-- A `*mux.Router`, as returned by `newRouter` (declared in another file of
the package): the router serving the handler's routes. -/
structure Router where
  handler : AppHandler

/-- A non-nil `trace.Exporter`. -/
structure Exporter where
  id : Nat
  deriving DecidableEq, Repr

/-- `trace.SamplingParameters`, the part a sampler may look at. -/
structure SamplingParameters where
  name : String
  hasRemoteParent : Bool
  deriving DecidableEq, Repr

/-- `trace.SamplingDecision`. -/
structure SamplingDecision where
  Sample : Bool
  deriving DecidableEq, Repr

/-- `trace.Sampler`, a `func(SamplingParameters) SamplingDecision`. -/
abbrev Sampler := SamplingParameters → SamplingDecision

/-- `func AlwaysSample() Sampler`. -/
def trace.AlwaysSample : Sampler := fun _ => { Sample := true }

/-- `*server.DefaultDriver`. -/
structure DefaultDriver where
  readTimeoutSec : Nat
  writeTimeoutSec : Nat
  idleTimeoutSec : Nat
  deriving DecidableEq, Repr

/-- `func NewDefaultDriver() *DefaultDriver`. -/
def server.NewDefaultDriver : DefaultDriver := ⟨30, 30, 120⟩

/-- `server.Options`, the five fields `wire.Struct` fills. An interface-typed
field holds `none` for the nil interface value. -/
structure Options where
  RequestLogger : Option requestLogger
  HealthChecks : List CheckerRef
  TraceExporter : Option Exporter
  DefaultSamplingPolicy : Sampler
  Driver : Option DefaultDriver

/-- `*server.Server`: the handler and the configuration it was given. -/
structure Server where
  handler : Option Router
  options : Options

/-- `func New(h http.Handler, opts *Options) *Server`. -/
def server.New (h : Option Router) (opts : Options) : Server := ⟨h, opts⟩

/-- The Go types of the graph. -/
inductive Ty where
  | Context
  | EnvName
  | DatastoreName
  | ZerologLevel
  | ZerologLogger
  | Application
  | AppHandler
  | MuxRouter
  | HttpHandler
  | TraceSampler
  | TraceExporter
  | Server
  | DefaultDriver
  | DriverServer
  | RequestLoggerPtr
  | RequestlogLogger
  | HealthCheckers
  | ServerOptions
  | PGDatasourceName
  | SqlDB
  | Datastore
  | Datastorer
  deriving DecidableEq, Repr

/-- A value of one of the types of the graph. -/
inductive Val where
  | context (c : Context)
  | envName (n : EnvName)
  | datastoreName (n : Name)
  | zerologLevel (l : Level)
  | zerologLogger (l : Logger)
  | application (a : Application)
  | appHandler (h : AppHandler)
  | muxRouter (r : Router)
  | httpHandler (h : Option Router)
  | traceSampler (s : Sampler)
  | traceExporter (e : Option Exporter)
  | server (s : Server)
  | defaultDriver (d : DefaultDriver)
  | driverServer (d : Option DefaultDriver)
  | requestLoggerPtr (rl : requestLogger)
  | requestlogLogger (rl : Option requestLogger)
  | healthCheckers (l : List CheckerRef)
  | serverOptions (o : Options)
  | pgDatasourceName (n : PGDatasourceName)
  | sqlDB (db : DB)
  | datastore (d : Datastore)
  | datastorer (d : Option Datastore)

/-- The type of a value. -/
def Val.ty : Val → Ty
  | .context _ => .Context
  | .envName _ => .EnvName
  | .datastoreName _ => .DatastoreName
  | .zerologLevel _ => .ZerologLevel
  | .zerologLogger _ => .ZerologLogger
  | .application _ => .Application
  | .appHandler _ => .AppHandler
  | .muxRouter _ => .MuxRouter
  | .httpHandler _ => .HttpHandler
  | .traceSampler _ => .TraceSampler
  | .traceExporter _ => .TraceExporter
  | .server _ => .Server
  | .defaultDriver _ => .DefaultDriver
  | .driverServer _ => .DriverServer
  | .requestLoggerPtr _ => .RequestLoggerPtr
  | .requestlogLogger _ => .RequestlogLogger
  | .healthCheckers _ => .HealthCheckers
  | .serverOptions _ => .ServerOptions
  | .pgDatasourceName _ => .PGDatasourceName
  | .sqlDB _ => .SqlDB
  | .datastore _ => .Datastore
  | .datastorer _ => .Datastorer

/-! ## the provider set of `setupApp` -/

/-- The items handed to `wire.Build`, one name each. -/
inductive ProviderId where
  | NewApplication
  | newRouter
  | bindHttpHandler
  | NewAppHandler
  | NewLogger
  | AlwaysSample
  | serverNew
  | NewDefaultDriver
  | bindDriverServer
  | bindRequestlogLogger
  | newRequestLogger
  | exporterValue
  | appHealthChecks
  | optionsStruct
  | NewPGDatasourceName
  | NewDB
  | bindDatastorer
  | NewDatastore
  deriving DecidableEq, Repr

/-- How an item was declared: a provider function, `wire.Bind`,
`wire.InterfaceValue` or `wire.Struct`. -/
inductive Kind where
  | provider
  | bind
  | value
  | struct
  deriving DecidableEq, Repr

/-- A provider declaration: the types it consumes, the type it produces and
whether it returns a cleanup callback. -/
structure Decl where
  id : ProviderId
  kind : Kind
  inputs : List Ty
  output : Ty
  cleanup : Bool
  deriving DecidableEq, Repr

/-- Modelled from the spec: the signature of `app.NewApplication`, declared
outside `inject_main.go` (`Datastore,Logger → App`, with the environment
name). -/
def declNewApplication : Decl :=
  ⟨.NewApplication, .provider, [.EnvName, .Datastorer, .ZerologLogger], .Application, false⟩

/-- Modelled from the spec: the signature of `newRouter`, declared in another
file of the package; the router is built over the application handler. -/
def declNewRouter : Decl := ⟨.newRouter, .provider, [.AppHandler], .MuxRouter, false⟩

/-- `wire.Bind(new(http.Handler), new(*mux.Router))`. -/
def declBindHttpHandler : Decl := ⟨.bindHttpHandler, .bind, [.MuxRouter], .HttpHandler, false⟩

/-- Modelled from the spec: the signature of `handler.NewAppHandler`,
declared outside `inject_main.go`. -/
def declNewAppHandler : Decl := ⟨.NewAppHandler, .provider, [.Application], .AppHandler, false⟩

/-- Modelled from the spec: the signature of `app.NewLogger`, declared
outside `inject_main.go`; the log sink is a leaf resource built from the log
verbosity level. -/
def declNewLogger : Decl := ⟨.NewLogger, .provider, [.ZerologLevel], .ZerologLogger, false⟩

/-- `func AlwaysSample() Sampler`. -/
def declAlwaysSample : Decl := ⟨.AlwaysSample, .provider, [], .TraceSampler, false⟩

/-- `func New(h http.Handler, opts *Options) *Server`. -/
def declServerNew : Decl := ⟨.serverNew, .provider, [.HttpHandler, .ServerOptions], .Server, false⟩

/-- `func NewDefaultDriver() *DefaultDriver`. -/
def declNewDefaultDriver : Decl := ⟨.NewDefaultDriver, .provider, [], .DefaultDriver, false⟩

/-- `wire.Bind(new(driver.Server), new(*server.DefaultDriver))`. -/
def declBindDriverServer : Decl := ⟨.bindDriverServer, .bind, [.DefaultDriver], .DriverServer, false⟩

/-- `wire.Bind(new(requestlog.Logger), new(*requestLogger))`. -/
def declBindRequestlogLogger : Decl :=
  ⟨.bindRequestlogLogger, .bind, [.RequestLoggerPtr], .RequestlogLogger, false⟩

/-- `func newRequestLogger(l zerolog.Logger) *requestLogger`. -/
def declNewRequestLogger : Decl :=
  ⟨.newRequestLogger, .provider, [.ZerologLogger], .RequestLoggerPtr, false⟩

/-- `wire.InterfaceValue(new(trace.Exporter), trace.Exporter(nil))`. -/
def declExporterValue : Decl := ⟨.exporterValue, .value, [], .TraceExporter, false⟩

/-- `func appHealthChecks(n datastore.Name, db *sql.DB) ([]health.Checker, func())`. -/
def declAppHealthChecks : Decl :=
  ⟨.appHealthChecks, .provider, [.DatastoreName, .SqlDB], .HealthCheckers, true⟩

/-- `wire.Struct(new(server.Options), "RequestLogger", "HealthChecks",
"TraceExporter", "DefaultSamplingPolicy", "Driver")`; the inputs are the
types of the five fields, in this order. -/
def declOptionsStruct : Decl :=
  ⟨.optionsStruct, .struct,
    [.RequestlogLogger, .HealthCheckers, .TraceExporter, .TraceSampler, .DriverServer],
    .ServerOptions, false⟩

/-- Modelled from the spec: the signature of `datastore.NewPGDatasourceName`,
declared outside `inject_main.go`; the connection settings are read from the
datastore connection name, a root configuration value. -/
def declNewPGDatasourceName : Decl :=
  ⟨.NewPGDatasourceName, .provider, [.DatastoreName], .PGDatasourceName, false⟩

/-- Modelled from the spec: the signature of `datastore.NewDB`, declared
outside `inject_main.go` (`ConfigRoot → DB`); it opens the database handle,
may fail, and registers the cleanup that releases the handle. -/
def declNewDB : Decl := ⟨.NewDB, .provider, [.PGDatasourceName], .SqlDB, true⟩

/-- `wire.Bind(new(datastore.Datastorer), new(*datastore.Datastore))`. -/
def declBindDatastorer : Decl := ⟨.bindDatastorer, .bind, [.Datastore], .Datastorer, false⟩

/-- Modelled from the spec: the signature of `datastore.NewDatastore`,
declared outside `inject_main.go` (`DB → Datastore`). -/
def declNewDatastore : Decl := ⟨.NewDatastore, .provider, [.SqlDB], .Datastore, false⟩

/-- `var applicationSet = wire.NewSet(...)`. -/
def applicationSet : List Decl :=
  [declNewApplication, declNewRouter, declBindHttpHandler, declNewAppHandler, declNewLogger]

/-- `var goCloudServerSet = wire.NewSet(...)`. -/
def goCloudServerSet : List Decl :=
  [declAlwaysSample, declServerNew, declNewDefaultDriver, declBindDriverServer,
   declBindRequestlogLogger, declNewRequestLogger]

/-- The argument list of `wire.Build` in `setupApp`, in source order. -/
def setupAppSet : List Decl :=
  [declExporterValue] ++ goCloudServerSet ++ applicationSet ++
  [declAppHealthChecks, declOptionsStruct, declNewPGDatasourceName, declNewDB,
   declBindDatastorer, declNewDatastore]

/-- The types of the parameters of `setupApp`: the root values. -/
def setupAppRoots : List Ty := [.Context, .EnvName, .DatastoreName, .ZerologLevel]

/-! ## the dependency graph builder -/

/-- Why a graph cannot be built. -/
inductive BuildError where
  | CycleError
  | MissingProviderError (t : Ty)
  | DuplicateProviderError (t : Ty)
  | ProviderFailed (id : ProviderId) (msg : String)
  | BadArguments (id : ProviderId)
  | NoResult
  deriving DecidableEq, Repr

/-- The declarations of `ps` whose output type is `t`. -/
def producers (ps : List Decl) (t : Ty) : List Decl := ps.filter fun p => p.output = t

/-- Number of sources of `t`: the declarations producing it, plus one when it
is a root. -/
def sourceCount (roots : List Ty) (ps : List Decl) (t : Ty) : Nat :=
  (producers ps t).length + (if t ∈ roots then 1 else 0)

/-- Modelled from the spec: the generated injector is not part of
`inject_main.go`. First output type with more than one source
(`DuplicateProviderError`). -/
def findDuplicate (roots : List Ty) (ps : List Decl) : Option Ty :=
  (ps.map (·.output)).find? fun t => decide (1 < sourceCount roots ps t)

/-- Modelled from the spec: the generated injector is not part of
`inject_main.go`. First declared input type with no source
(`MissingProviderError`). -/
def findMissing (roots : List Ty) (ps : List Decl) : Option Ty :=
  (ps.flatMap (·.inputs)).find? fun t => decide (sourceCount roots ps t = 0)

/-- A provider is eligible once all its declared inputs are available. -/
def eligible (avail : List Ty) (p : Decl) : Bool := p.inputs.all fun t => decide (t ∈ avail)

/-- Modelled from the spec: the generated injector is not part of
`inject_main.go`. The topological ordering of §4.1: repeatedly take the first
eligible pending provider, in declaration order; `CycleError` when none is
eligible while providers are pending. Each step removes one pending provider,
so `fuel = pending.length` is never exhausted. -/
def resolveLoop : Nat → List Ty → List Decl → List Decl → Except BuildError (List Decl)
  | _, _, [], done => .ok done
  | 0, _, _ :: _, _ => .error .CycleError
  | fuel + 1, avail, p :: ps, done =>
    match (p :: ps).find? (eligible avail) with
    | none => .error .CycleError
    | some q => resolveLoop fuel (avail ++ [q.output]) ((p :: ps).erase q) (done ++ [q])

/-- Modelled from the spec: the generated injector is not part of
`inject_main.go`. Resolution of a provider set against the root types: the
construction order, or the error of §4.1. -/
def resolve (roots : List Ty) (ps : List Decl) : Except BuildError (List Decl) :=
  match findDuplicate roots ps with
  | some t => .error (.DuplicateProviderError t)
  | none =>
    match findMissing roots ps with
    | some t => .error (.MissingProviderError t)
    | none => resolveLoop ps.length roots ps []

/-- A construction order is valid from `avail` when every provider finds all
its inputs among the roots and the outputs of the providers before it. -/
def validOrder : List Ty → List Decl → Bool
  | _, [] => true
  | avail, p :: ps => eligible avail p && validOrder (avail ++ [p.output]) ps

/-- Modelled from the spec: the generated injector is not part of
`inject_main.go`. The teardown chain of a construction order: the providers
that registered a cleanup, in reverse construction order. -/
def teardownOrder (order : List Decl) : List ProviderId :=
  ((order.filter (·.cleanup)).map (·.id)).reverse

/-- The construction order the builder finds for the provider set of
`setupApp`. -/
def setupAppOrder : List Decl :=
  [declExporterValue, declAlwaysSample, declNewDefaultDriver, declBindDriverServer,
   declNewLogger, declNewRequestLogger, declBindRequestlogLogger, declNewPGDatasourceName,
   declNewDB, declAppHealthChecks, declOptionsStruct, declNewDatastore, declBindDatastorer,
   declNewApplication, declNewAppHandler, declNewRouter, declBindHttpHandler, declServerNew]

/-! ## running the providers -/

/-- The providers of the set whose bodies lie outside `inject_main.go` and
decide a value by themselves: the logger built from the log level, the
connection settings read for a datastore name, and the opening of the
database handle (which may fail). -/
structure Host where
  NewLogger : Level → Logger
  NewPGDatasourceName : Name → PGDatasourceName
  openDB : PGDatasourceName → Except String DB

/-- Modelled from the spec: `datastore.NewDB` is declared outside
`inject_main.go`; its cleanup releases the database handle. -/
def releaseDB (db : DB) (w : World) : World :=
  { w with trace := w.trace ++ [.dbReleased db] }

/-- One provider call: the arguments arrive in the order of the declared
inputs; the result is the value produced, the cleanup registered (when
there is one) and the state after the call. -/
def runProvider (host : Host) :
    ProviderId → List Val → World → Except BuildError (Val × Option Cleanup × World)
  | .NewApplication, [.envName n, .datastorer d, .zerologLogger l], w =>
    .ok (.application ⟨n, d, l⟩, none, w)
  | .newRouter, [.appHandler h], w => .ok (.muxRouter ⟨h⟩, none, w)
  | .bindHttpHandler, [.muxRouter r], w => .ok (.httpHandler (some r), none, w)
  | .NewAppHandler, [.application a], w => .ok (.appHandler ⟨a⟩, none, w)
  | .NewLogger, [.zerologLevel l], w => .ok (.zerologLogger (host.NewLogger l), none, w)
  | .AlwaysSample, [], w => .ok (.traceSampler trace.AlwaysSample, none, w)
  | .serverNew, [.httpHandler h, .serverOptions o], w => .ok (.server (server.New h o), none, w)
  | .NewDefaultDriver, [], w => .ok (.defaultDriver server.NewDefaultDriver, none, w)
  | .bindDriverServer, [.defaultDriver d], w => .ok (.driverServer (some d), none, w)
  | .bindRequestlogLogger, [.requestLoggerPtr rl], w => .ok (.requestlogLogger (some rl), none, w)
  | .newRequestLogger, [.zerologLogger l], w => .ok (.requestLoggerPtr (newRequestLogger l), none, w)
  | .exporterValue, [], w => .ok (.traceExporter none, none, w)
  | .appHealthChecks, [.datastoreName n, .sqlDB db], w =>
    let ((list, cleanup), w') := appHealthChecks n db w
    .ok (.healthCheckers list, some cleanup, w')
  | .optionsStruct, [.requestlogLogger rl, .healthCheckers hc, .traceExporter te,
      .traceSampler sp, .driverServer dr], w =>
    .ok (.serverOptions ⟨rl, hc, te, sp, dr⟩, none, w)
  | .NewPGDatasourceName, [.datastoreName n], w =>
    .ok (.pgDatasourceName (host.NewPGDatasourceName n), none, w)
  | .NewDB, [.pgDatasourceName n], w =>
    match host.openDB n with
    | .ok db => .ok (.sqlDB db, some (releaseDB db), { w with trace := w.trace ++ [.dbOpened db] })
    | .error msg => .error (.ProviderFailed .NewDB msg)
  | .bindDatastorer, [.datastore d], w => .ok (.datastorer (some d), none, w)
  | .NewDatastore, [.sqlDB db], w => .ok (.datastore ⟨db⟩, none, w)
  | id, _, _ => .error (.BadArguments id)

/-- The value of type `t` built so far. -/
def findVal (env : List Val) (t : Ty) : Option Val := env.find? fun v => decide (v.ty = t)

/-- The arguments of a provider, one per declared input. -/
def gatherArgs (env : List Val) : List Ty → Except BuildError (List Val)
  | [] => .ok []
  | t :: ts =>
    match findVal env t with
    | none => .error (.MissingProviderError t)
    | some v =>
      match gatherArgs env ts with
      | .ok vs => .ok (v :: vs)
      | .error e => .error e

/-- A registered cleanup, with the provider that registered it. -/
abbrev Registered := ProviderId × Cleanup

/-- Modelled from the spec: the generated injector is not part of
`inject_main.go`. Calls the providers in construction order, each exactly
once; a cleanup is pushed in front of those registered before it, so the
chain reads in teardown order. -/
def construct (host : Host) :
    List Decl → List Val → List Registered → World →
      Except BuildError (List Val × List Registered × World)
  | [], env, chain, w => .ok (env, chain, w)
  | p :: ps, env, chain, w =>
    match gatherArgs env p.inputs with
    | .error e => .error e
    | .ok args =>
      match runProvider host p.id args w with
      | .error e => .error e
      | .ok (v, none, w') => construct host ps (env ++ [v]) chain w'
      | .ok (v, some c, w') => construct host ps (env ++ [v]) ((p.id, c) :: chain) w'

/-- Modelled from the spec: the generated injector is not part of
`inject_main.go`. The aggregated teardown: calls each registered cleanup,
in chain order. -/
def runTeardown (chain : List Registered) (w : World) : World :=
  chain.foldl (fun w c => c.2 w) w

/-- Modelled from the spec: the body of `setupApp` is generated from the
`wire.Build` declaration and is not part of `inject_main.go`. Resolves the
provider set against the four root values, constructs the graph and returns
the server, the teardown chain and the state after construction. -/
def setupApp (host : Host) (ctx : Context) (envName : EnvName) (dsName : Name)
    (loglvl : Level) (w : World) :
    Except BuildError (Server × List Registered × World) :=
  match resolve setupAppRoots setupAppSet with
  | .error e => .error e
  | .ok order =>
    match construct host order
        [.context ctx, .envName envName, .datastoreName dsName, .zerologLevel loglvl] [] w with
    | .error e => .error e
    | .ok (env, chain, w') =>
      match findVal env .Server with
      | some (.server srv) => .ok (srv, chain, w')
      | _ => .error .NoResult

/-- A host whose database opens. -/
def sampleHost : Host where
  NewLogger := fun l => plainLogger l
  NewPGDatasourceName := fun _ => ⟨"host=localhost dbname=gab_local"⟩
  openDB := fun _ => .ok ⟨1⟩

/-- A quiet initial state: no checker, nothing done yet. -/
def emptyWorld : World := ⟨[], []⟩

/-! ## Go strings -/

/-- On a string `utf8.ValidString` accepts, `AppendString` changes nothing. -/
theorem appendStringFrom_valid (s : GoString) (k : Nat) (h : validFrom k s = true) :
    appendStringFrom k s = s := by
  induction s generalizing k with
  | nil => cases k <;> rfl
  | cons b rest ih =>
    cases k with
    | succ k =>
      simp only [validFrom] at h
      simp only [appendStringFrom, ih k h]
    | zero =>
      simp only [validFrom] at h
      simp only [appendStringFrom]
      cases hr : runeLen (b :: rest) with
      | zero => rw [hr] at h; cases h
      | succ j =>
        rw [hr] at h
        simp only [ih j h]

/-- A valid UTF-8 string is recorded unchanged. -/
theorem appendString_valid (s : GoString) (h : ValidString s = true) : appendString s = s :=
  appendStringFrom_valid s 0 h

/-- ASCII text is valid UTF-8. -/
theorem validString_of_ascii (s : GoString) (h : ∀ b ∈ s, b.val < 128) :
    ValidString s = true := by
  unfold ValidString
  induction s with
  | nil => rfl
  | cons b rest ih =>
    have hb : b.val < 128 := h b (List.mem_cons_self _ _)
    have hr : runeLen (b :: rest) = 1 := by
      simp only [runeLen]
      rw [if_pos hb]
    simp only [validFrom, hr]
    exact ih fun c hc => h c (List.mem_cons_of_mem _ hc)

/-- A hexadecimal digit is an ASCII character that reads back as its value. -/
theorem hexDigit_spec : ∀ n, n < 16 → (hexDigit n).val < 128 ∧ hexVal (hexDigit n) = some n := by
  decide

/-- A hexadecimal rendering is ASCII. -/
theorem hexString_ascii (bs : List (Fin 256)) : ∀ c ∈ hexString bs, c.val < 128 := by
  intro c hc
  unfold hexString at hc
  rw [List.mem_flatMap] at hc
  obtain ⟨b, _, hcb⟩ := hc
  have h1 := (hexDigit_spec (b.val / 16) (by omega)).1
  have h2 := (hexDigit_spec (b.val % 16) (by omega)).1
  simp only [List.mem_cons, List.mem_singleton, List.not_mem_nil, or_false] at hcb
  rcases hcb with hcb | hcb <;> rw [hcb] <;> assumption

/-- A hexadecimal rendering is recorded unchanged. -/
theorem appendString_hexString (bs : List (Fin 256)) :
    appendString (hexString bs) = hexString bs :=
  appendString_valid _ (validString_of_ascii _ (hexString_ascii bs))

/-- Reading a hexadecimal rendering back gives the bytes it was made from. -/
theorem unhex_hexString (bs : List (Fin 256)) : unhex (hexString bs) = some bs := by
  induction bs with
  | nil => rfl
  | cons b rest ih =>
    have h1 := (hexDigit_spec (b.val / 16) (by omega)).2
    have h2 := (hexDigit_spec (b.val % 16) (by omega)).2
    have hb : byte (b.val / 16 * 16 + b.val % 16) = b := by
      apply Fin.ext
      have hlt := b.isLt
      show (b.val / 16 * 16 + b.val % 16) % 256 = b.val
      omega
    have hs : hexString (b :: rest) =
        hexDigit (b.val / 16) :: hexDigit (b.val % 16) :: hexString rest := rfl
    rw [hs]
    simp only [unhex, h1, h2, ih, hb]

/-- Two characters per byte. -/
theorem hexString_length (bs : List (Fin 256)) : (hexString bs).length = 2 * bs.length := by
  induction bs with
  | nil => rfl
  | cons b rest ih =>
    have hs : hexString (b :: rest) =
        hexDigit (b.val / 16) :: hexDigit (b.val % 16) :: hexString rest := rfl
    rw [hs]
    simp only [List.length_cons, ih]
    omega

/-! ## time -/

/-- The rendering of a time in the layout `RFC1123`, chunk by chunk. -/
theorem Format_RFC1123 (t : Time) :
    t.Format RFC1123 =
      shortDayName t.weekday ++ (ascii ", " ++ (appendInt t.day 2 ++ (ascii " " ++
      (shortMonthName t.month ++ (ascii " " ++ (appendInt t.year 4 ++ (ascii " " ++
      (appendInt t.hour 2 ++ (ascii ":" ++ (appendInt t.minute 2 ++ (ascii ":" ++
      (appendInt t.second 2 ++ (ascii " " ++ zoneText t))))))))))))) := by
  simp [Time.Format, RFC1123, formatLayout, ascii]

/-- Decimal digits are ASCII. -/
theorem digitChar_ascii : ∀ m, m < 10 → (Nat.digitChar m).toNat < 128 := by decide

/-- The digits `Nat.toDigitsCore` produces are ASCII. -/
theorem toDigitsCore_ascii (fuel n : Nat) (ds : List Char) (h : ∀ c ∈ ds, c.toNat < 128) :
    ∀ c ∈ Nat.toDigitsCore 10 fuel n ds, c.toNat < 128 := by
  induction fuel generalizing n ds with
  | zero => simpa [Nat.toDigitsCore] using h
  | succ fuel ih =>
    have hd : (Nat.digitChar (n % 10)).toNat < 128 := digitChar_ascii _ (Nat.mod_lt _ (by decide))
    have hds : ∀ c ∈ Nat.digitChar (n % 10) :: ds, c.toNat < 128 := by
      intro c hc
      rcases List.mem_cons.1 hc with hc | hc
      · rw [hc]; exact hd
      · exact h c hc
    simp only [Nat.toDigitsCore]
    split
    · exact hds
    · exact ih _ _ hds

/-- The decimal rendering of a number is ASCII. -/
theorem ascii_repr_lt (n : Nat) : ∀ b ∈ ascii (Nat.repr n), b.val < 128 := by
  intro b hb
  unfold ascii at hb
  rw [List.mem_map] at hb
  obtain ⟨c, hc, hcb⟩ := hb
  have hc2 : c.toNat < 128 := by
    apply toDigitsCore_ascii (n + 1) n [] (by simp) c
    simpa [Nat.repr, Nat.toDigits] using hc
  rw [← hcb]
  show c.toNat % 256 < 128
  omega

/-- What `appendInt` writes is ASCII. -/
theorem appendInt_ascii (x : Int) (width : Nat) : ∀ b ∈ appendInt x width, b.val < 128 := by
  intro b hb
  unfold appendInt at hb
  simp only [List.mem_append, List.mem_replicate] at hb
  rcases hb with (hb | hb) | hb
  · split at hb
    · have hm : b = byte 45 := by simpa [ascii] using hb
      rw [hm]; decide
    · cases hb
  · rw [hb.2]; decide
  · exact ascii_repr_lt _ b hb

set_option maxRecDepth 8000 in
/-- Day names are ASCII. -/
theorem shortDayName_ascii : ∀ d : Fin 7, ∀ b ∈ shortDayName d, b.val < 128 := by decide

set_option maxRecDepth 8000 in
/-- Month names are ASCII. -/
theorem shortMonthName_ascii : ∀ m : Fin 12, ∀ b ∈ shortMonthName m, b.val < 128 := by decide

set_option maxRecDepth 8000 in
/-- The separators of `RFC1123` are ASCII. -/
theorem separators_ascii :
    (∀ b ∈ ascii ", ", b.val < 128) ∧ (∀ b ∈ ascii " ", b.val < 128) ∧
    (∀ b ∈ ascii ":", b.val < 128) := by decide

/-- An ASCII byte is a rune of its own. -/
theorem validFrom_cons_ascii (x : Fin 256) (rest : GoString) (hx : x.val < 128) :
    validFrom 0 (x :: rest) = validFrom 0 rest := by
  have hr : runeLen (x :: rest) = 1 := by
    simp only [runeLen]
    rw [if_pos hx]
  simp only [validFrom, hr]

/-- ASCII text in front of a string does not change whether it is valid. -/
theorem validFrom_ascii_append (a b : GoString) (ha : ∀ x ∈ a, x.val < 128) :
    validFrom 0 (a ++ b) = validFrom 0 b := by
  induction a with
  | nil => rfl
  | cons x rest ih =>
    have hx : x.val < 128 := ha x (List.mem_cons_self _ _)
    rw [List.cons_append, validFrom_cons_ascii _ _ hx]
    exact ih fun c hc => ha c (List.mem_cons_of_mem _ hc)

/-- The zone chunk is valid UTF-8 when the abbreviation is. -/
theorem zoneText_valid (t : Time) (hz : ValidString t.zone = true) :
    ValidString (zoneText t) = true := by
  unfold zoneText
  split
  · exact hz
  · apply validString_of_ascii
    intro b hb
    simp only [List.mem_append] at hb
    rcases hb with (hb | hb) | hb
    · split at hb
      · have hm : b = byte 45 := by simpa [ascii] using hb
        rw [hm]; decide
      · have hm : b = byte 43 := by simpa [ascii] using hb
        rw [hm]; decide
    · exact appendInt_ascii _ _ b hb
    · exact appendInt_ascii _ _ b hb

/-- A time whose zone abbreviation is valid UTF-8 renders, in `RFC1123`, to
a valid UTF-8 string. -/
theorem Format_RFC1123_valid (t : Time) (hz : ValidString t.zone = true) :
    ValidString (t.Format RFC1123) = true := by
  rw [Format_RFC1123]
  unfold ValidString
  rw [validFrom_ascii_append _ _ (shortDayName_ascii _),
    validFrom_ascii_append _ _ separators_ascii.1,
    validFrom_ascii_append _ _ (appendInt_ascii _ _),
    validFrom_ascii_append _ _ separators_ascii.2.1,
    validFrom_ascii_append _ _ (shortMonthName_ascii _),
    validFrom_ascii_append _ _ separators_ascii.2.1,
    validFrom_ascii_append _ _ (appendInt_ascii _ _),
    validFrom_ascii_append _ _ separators_ascii.2.1,
    validFrom_ascii_append _ _ (appendInt_ascii _ _),
    validFrom_ascii_append _ _ separators_ascii.2.2,
    validFrom_ascii_append _ _ (appendInt_ascii _ _),
    validFrom_ascii_append _ _ separators_ascii.2.2,
    validFrom_ascii_append _ _ (appendInt_ascii _ _),
    validFrom_ascii_append _ _ separators_ascii.2.1]
  exact zoneText_valid t hz

/-! ## requestLogger.Log -/

/-- Once an event is discarded it stays discarded. -/
theorem runHooks_disabled (hs : List Hook) (msg : String) :
    (runHooks hs Disabled msg).2 = Disabled := by
  induction hs with
  | nil => rfl
  | cons h rest ih =>
    simp only [runHooks]
    cases (h Disabled msg).discard <;> simpa using ih

/-- An event leaves the hooks undiscarded exactly when no hook discards it. -/
theorem runHooks_level (hs : List Hook) (lvl : Level) (msg : String) (hl : lvl ≠ Disabled) :
    (runHooks hs lvl msg).2 ≠ Disabled ↔ (hs.all fun h => !(h lvl msg).discard) = true := by
  induction hs with
  | nil => simpa [runHooks] using hl
  | cons h rest ih =>
    simp only [runHooks, List.all_cons, Bool.and_eq_true]
    cases hd : (h lvl msg).discard with
    | true => simp [runHooks_disabled]
    | false => simpa using ih

/-- The gate of `Log`, from the writer, the levels, the sampler and the
hooks. -/
theorem writesInfo_eq (g : Globals) (l : Logger) (msg : String) :
    l.writesInfo g msg = true ↔
      (l.should g InfoLevel).1 = true ∧ (runHooks l.hooks InfoLevel msg).2 ≠ Disabled := by
  have hne : InfoLevel ≠ Disabled := by decide
  rw [runHooks_level l.hooks InfoLevel msg hne]
  unfold Logger.writesInfo Logger.should
  cases hw : l.hasWriter with
  | false => simp
  | true =>
    by_cases h1 : InfoLevel < l.level
    · have h1' : ¬ l.level ≤ InfoLevel := not_le.2 h1
      simp [h1, h1']
    · have h1' : l.level ≤ InfoLevel := not_lt.1 h1
      by_cases h2 : InfoLevel < g.level
      · have h2' : ¬ g.level ≤ InfoLevel := not_le.2 h2
        simp [h1, h2, h2']
      · have h2' : g.level ≤ InfoLevel := not_lt.1 h2
        cases hs : l.sampler with
        | none => simp [h1, h2, h1', h2']
        | some s =>
          cases hds : g.disableSampling <;> simp [h1, h2, h1', h2']

/-- What `Log` writes: nothing when the gate is closed; otherwise one record
of level `info` holding the logger's context, the sixteen fields set from the
entry in the order of the calls, and the fields the hooks add. -/
theorem Log_eq (g : Globals) (rl : requestLogger) (e : Entry) (sink : List Record) :
    (requestLogger.Log g rl e sink).2 =
      if rl.logger.writesInfo g "request received" = true then
        sink ++ [⟨InfoLevel,
          rl.logger.context ++
          [("received_time", .str (appendString (e.ReceivedTime.Format RFC1123))),
           ("request_method", .str (appendString e.RequestMethod)),
           ("request_url", .str (appendString e.RequestURL)),
           ("request_header_size", .int64 e.RequestHeaderSize),
           ("request_body_size", .int64 e.RequestBodySize),
           ("user_agent", .str (appendString e.UserAgent)),
           ("referer", .str (appendString e.Referer)),
           ("protocol", .str (appendString e.Proto)),
           ("remote_ip", .str (appendString e.RemoteIP)),
           ("server_ip", .str (appendString e.ServerIP)),
           ("status", .int e.Status),
           ("response_header_size", .int64 e.ResponseHeaderSize),
           ("response_body_size", .int64 e.ResponseBodySize),
           ("latency in millis", .int64 e.Latency.Milliseconds),
           ("trace_id", .str e.TraceID.String),
           ("span_id", .str e.SpanID.String)] ++
          (runHooks rl.logger.hooks InfoLevel "request received").1,
          "request received"⟩]
      else sink := by
  have hgate := writesInfo_eq g rl.logger "request received"
  have ht : appendString e.TraceID.String = e.TraceID.String := appendString_hexString _
  have hsp : appendString e.SpanID.String = e.SpanID.String := appendString_hexString _
  unfold requestLogger.Log Logger.Info Logger.newEvent
  by_cases hs : (rl.logger.should g InfoLevel).1 = true
  · by_cases hh : (runHooks rl.logger.hooks InfoLevel "request received").2 = Disabled
    · have hw : ¬ rl.logger.writesInfo g "request received" = true := fun hc => (hgate.1 hc).2 hh
      rw [if_neg hw]
      simp [hs, hh, Event.Str, Event.Int64, Event.Int, Event.append, Event.Msg]
    · have hw : rl.logger.writesInfo g "request received" = true := hgate.2 ⟨hs, hh⟩
      rw [if_pos hw]
      simp [hs, hh, ht, hsp, Event.Str, Event.Int64, Event.Int, Event.append, Event.Msg]
  · have hw : ¬ rl.logger.writesInfo g "request received" = true := fun hc => hs (hgate.1 hc).1
    rw [if_neg hw]
    simp [hs, Event.Str, Event.Int64, Event.Int, Event.append, Event.Msg]

/-- C1, as stated, fails in three ways. A logger of level `warn` builds no
record. A logger whose context already holds `request_url` builds a record of
seventeen pairs with that key twice. A user agent that is not valid UTF-8 is
not recorded unchanged: its byte `0xFF` becomes U+FFFD. -/
theorem Log_exact_fields_fails :
    (requestLogger.Log openGlobals (newRequestLogger (plainLogger WarnLevel)) sampleEntry []).2
      = [] ∧
    ((requestLogger.Log openGlobals
        (newRequestLogger
          { plainLogger InfoLevel with context := [("request_url", .str (ascii "/"))] })
        sampleEntry []).2.map fun r =>
          (r.fields.length, (r.fields.map Prod.fst).count "request_url")) = [(17, 2)] ∧
    ((requestLogger.Log openGlobals (newRequestLogger (plainLogger InfoLevel))
        rawAgentEntry []).2.map fun r => r.fields.lookup "user_agent")
      = [some (.str [97, 239, 191, 189])] ∧
    rawAgentEntry.UserAgent = [97, 255] := by
  refine ⟨?_, ?_, ?_, rfl⟩
  · rw [Log_eq]; rfl
  · rw [Log_eq]; decide
  · rw [Log_eq]; decide

/-- C1, amended: when an info event of the logger reaches the sink, `Log`
emits one record of level `info` with message "request received" whose pairs
are, in order, the logger's context fields, then exactly the sixteen fields
`received_time` (the receipt time formatted as RFC1123), `request_method`,
`request_url`, `request_header_size`, `request_body_size`, `user_agent`,
`referer`, `protocol`, `remote_ip`, `server_ip`, `status`,
`response_header_size`, `response_body_size`, `latency in millis`,
`trace_id`, `span_id` with the entry's values, then the fields the logger's
hooks add. The sixteen keys are pairwise distinct; with no context and no
hooks they are the whole record. Integers are recorded unchanged; a string
is recorded with each invalid UTF-8 byte replaced by U+FFFD, hence unchanged
when it is valid UTF-8 (as the receipt time is when its zone abbreviation
is); the identifiers are recorded as the lower-case hexadecimal of their
bytes, two characters per byte. -/
theorem Log_record_shape (g : Globals) (rl : requestLogger) (e : Entry) (sink : List Record)
    (hw : rl.logger.writesInfo g "request received" = true) :
    ∃ (r : Record) (logged : List Field),
      (requestLogger.Log g rl e sink).2 = sink ++ [r] ∧
      r.level = InfoLevel ∧ r.message = "request received" ∧
      r.fields = rl.logger.context ++ logged ++
        (runHooks rl.logger.hooks InfoLevel "request received").1 ∧
      logged =
        [("received_time", .str (appendString (e.ReceivedTime.Format RFC1123))),
         ("request_method", .str (appendString e.RequestMethod)),
         ("request_url", .str (appendString e.RequestURL)),
         ("request_header_size", .int64 e.RequestHeaderSize),
         ("request_body_size", .int64 e.RequestBodySize),
         ("user_agent", .str (appendString e.UserAgent)),
         ("referer", .str (appendString e.Referer)),
         ("protocol", .str (appendString e.Proto)),
         ("remote_ip", .str (appendString e.RemoteIP)),
         ("server_ip", .str (appendString e.ServerIP)),
         ("status", .int e.Status),
         ("response_header_size", .int64 e.ResponseHeaderSize),
         ("response_body_size", .int64 e.ResponseBodySize),
         ("latency in millis", .int64 e.Latency.Milliseconds),
         ("trace_id", .str e.TraceID.String),
         ("span_id", .str e.SpanID.String)] ∧
      logged.length = 16 ∧
      (logged.map Prod.fst).Nodup ∧
      (rl.logger.context = [] → rl.logger.hooks = [] → r.fields = logged) ∧
      (∀ s : GoString, ValidString s = true → appendString s = s) ∧
      unhex e.TraceID.String = some e.TraceID.bytes ∧ e.TraceID.String.length = 32 ∧
      unhex e.SpanID.String = some e.SpanID.bytes ∧ e.SpanID.String.length = 16 ∧
      Time.Format ⟨2006, 0, 2, 15, 4, 5, 1, ascii "MST", -25200⟩ RFC1123
        = ascii "Mon, 02 Jan 2006 15:04:05 MST" ∧
      Time.Format ⟨2024, 1, 29, 9, 3, 7, 4, [], 19800⟩ RFC1123
        = ascii "Thu, 29 Feb 2024 09:03:07 +0530" ∧
      e.ReceivedTime.Format RFC1123 =
        shortDayName e.ReceivedTime.weekday ++ (ascii ", " ++
        (appendInt e.ReceivedTime.day 2 ++ (ascii " " ++
        (shortMonthName e.ReceivedTime.month ++ (ascii " " ++
        (appendInt e.ReceivedTime.year 4 ++ (ascii " " ++
        (appendInt e.ReceivedTime.hour 2 ++ (ascii ":" ++
        (appendInt e.ReceivedTime.minute 2 ++ (ascii ":" ++
        (appendInt e.ReceivedTime.second 2 ++ (ascii " " ++
        zoneText e.ReceivedTime))))))))))))) ∧
      (ValidString e.ReceivedTime.zone = true →
        appendString (e.ReceivedTime.Format RFC1123) = e.ReceivedTime.Format RFC1123) ∧
      (List.finRange 7).map shortDayName =
        [ascii "Sun", ascii "Mon", ascii "Tue", ascii "Wed", ascii "Thu", ascii "Fri",
         ascii "Sat"] ∧
      (List.finRange 12).map shortMonthName =
        [ascii "Jan", ascii "Feb", ascii "Mar", ascii "Apr", ascii "May", ascii "Jun",
         ascii "Jul", ascii "Aug", ascii "Sep", ascii "Oct", ascii "Nov", ascii "Dec"] := by
  rw [Log_eq, if_pos hw]
  refine ⟨_, _, rfl, rfl, rfl, rfl, rfl, rfl, ?_, ?_, appendString_valid,
    unhex_hexString _, ?_, unhex_hexString _, ?_, ?_, ?_, Format_RFC1123 _,
    fun hz => appendString_valid _ (Format_RFC1123_valid _ hz), ?_, ?_⟩
  · simp only [List.map]
    decide
  · intro hc hh
    simp only [hc, hh, runHooks, List.nil_append, List.append_nil]
  · show (hexString e.TraceID.bytes).length = 32
    rw [hexString_length, e.TraceID.len]
  · show (hexString e.SpanID.bytes).length = 16
    rw [hexString_length, e.SpanID.len]
  · decide
  · decide
  · decide
  · decide

/-- The sample entry logged through a plain info-level logger: the record is
exactly the sixteen fields. -/
theorem Log_record_shape_witness :
    (plainLogger InfoLevel).writesInfo openGlobals "request received" = true ∧
    (∃ (r : Record) (logged : List Field),
      (requestLogger.Log openGlobals ⟨plainLogger InfoLevel⟩ sampleEntry []).2 = [] ++ [r] ∧
      r.level = InfoLevel ∧ r.message = "request received" ∧
      r.fields = (plainLogger InfoLevel).context ++ logged ++
        (runHooks (plainLogger InfoLevel).hooks InfoLevel "request received").1 ∧
      logged =
        [("received_time", .str (appendString (sampleEntry.ReceivedTime.Format RFC1123))),
         ("request_method", .str (appendString sampleEntry.RequestMethod)),
         ("request_url", .str (appendString sampleEntry.RequestURL)),
         ("request_header_size", .int64 sampleEntry.RequestHeaderSize),
         ("request_body_size", .int64 sampleEntry.RequestBodySize),
         ("user_agent", .str (appendString sampleEntry.UserAgent)),
         ("referer", .str (appendString sampleEntry.Referer)),
         ("protocol", .str (appendString sampleEntry.Proto)),
         ("remote_ip", .str (appendString sampleEntry.RemoteIP)),
         ("server_ip", .str (appendString sampleEntry.ServerIP)),
         ("status", .int sampleEntry.Status),
         ("response_header_size", .int64 sampleEntry.ResponseHeaderSize),
         ("response_body_size", .int64 sampleEntry.ResponseBodySize),
         ("latency in millis", .int64 sampleEntry.Latency.Milliseconds),
         ("trace_id", .str sampleEntry.TraceID.String),
         ("span_id", .str sampleEntry.SpanID.String)] ∧
      logged.length = 16 ∧
      (logged.map Prod.fst).Nodup ∧
      ((plainLogger InfoLevel).context = [] → (plainLogger InfoLevel).hooks = [] →
        r.fields = logged) ∧
      (∀ s : GoString, ValidString s = true → appendString s = s) ∧
      unhex sampleEntry.TraceID.String = some sampleEntry.TraceID.bytes ∧
      sampleEntry.TraceID.String.length = 32 ∧
      unhex sampleEntry.SpanID.String = some sampleEntry.SpanID.bytes ∧
      sampleEntry.SpanID.String.length = 16 ∧
      Time.Format ⟨2006, 0, 2, 15, 4, 5, 1, ascii "MST", -25200⟩ RFC1123
        = ascii "Mon, 02 Jan 2006 15:04:05 MST" ∧
      Time.Format ⟨2024, 1, 29, 9, 3, 7, 4, [], 19800⟩ RFC1123
        = ascii "Thu, 29 Feb 2024 09:03:07 +0530" ∧
      sampleEntry.ReceivedTime.Format RFC1123 =
        shortDayName sampleEntry.ReceivedTime.weekday ++ (ascii ", " ++
        (appendInt sampleEntry.ReceivedTime.day 2 ++ (ascii " " ++
        (shortMonthName sampleEntry.ReceivedTime.month ++ (ascii " " ++
        (appendInt sampleEntry.ReceivedTime.year 4 ++ (ascii " " ++
        (appendInt sampleEntry.ReceivedTime.hour 2 ++ (ascii ":" ++
        (appendInt sampleEntry.ReceivedTime.minute 2 ++ (ascii ":" ++
        (appendInt sampleEntry.ReceivedTime.second 2 ++ (ascii " " ++
        zoneText sampleEntry.ReceivedTime))))))))))))) ∧
      (ValidString sampleEntry.ReceivedTime.zone = true →
        appendString (sampleEntry.ReceivedTime.Format RFC1123) = sampleEntry.ReceivedTime.Format RFC1123) ∧
      (List.finRange 7).map shortDayName =
        [ascii "Sun", ascii "Mon", ascii "Tue", ascii "Wed", ascii "Thu", ascii "Fri",
         ascii "Sat"] ∧
      (List.finRange 12).map shortMonthName =
        [ascii "Jan", ascii "Feb", ascii "Mar", ascii "Apr", ascii "May", ascii "Jun",
         ascii "Jul", ascii "Aug", ascii "Sep", ascii "Oct", ascii "Nov", ascii "Dec"]) ∧
    (requestLogger.Log openGlobals ⟨plainLogger InfoLevel⟩ sampleEntry []).2 =
      [⟨InfoLevel,
        [("received_time", .str (ascii "Mon, 02 Jan 2006 15:04:05 MST")),
         ("request_method", .str (ascii "GET")),
         ("request_url", .str (ascii "/api/v1/movies")),
         ("request_header_size", .int64 120),
         ("request_body_size", .int64 0),
         ("user_agent", .str (ascii "curl/7.64.1")),
         ("referer", .str []),
         ("protocol", .str (ascii "HTTP/1.1")),
         ("remote_ip", .str (ascii "10.0.0.7")),
         ("server_ip", .str (ascii "10.0.0.1")),
         ("status", .int 200),
         ("response_header_size", .int64 96),
         ("response_body_size", .int64 (-1)),
         ("latency in millis", .int64 1500),
         ("trace_id", .str (ascii "abababababababababababababababab")),
         ("span_id", .str (ascii "cdcdcdcdcdcdcdcd"))],
        "request received"⟩] :=
  ⟨by decide,
    Log_record_shape openGlobals ⟨plainLogger InfoLevel⟩ sampleEntry [] (by decide),
    by decide⟩

/-- C2, as stated, fails: the sample entry has a non-negative latency, and a
logger of level `warn` records no latency for it, since it writes no record
at all. -/
theorem Log_latency_not_recorded :
    0 ≤ sampleEntry.Latency ∧
    (requestLogger.Log openGlobals (newRequestLogger (plainLogger WarnLevel)) sampleEntry []).2
      = [] ∧
    ¬ ∃ (r : Record) (m : Int),
      r ∈ (requestLogger.Log openGlobals (newRequestLogger (plainLogger WarnLevel))
        sampleEntry []).2 ∧
      ("latency in millis", FieldValue.int64 m) ∈ r.fields := by
  have h : (requestLogger.Log openGlobals (newRequestLogger (plainLogger WarnLevel))
      sampleEntry []).2 = [] := by
    rw [Log_eq]; rfl
  refine ⟨by decide, h, ?_⟩
  rintro ⟨r, m, hr, _⟩
  rw [h] at hr
  cases hr

/-- C2, amended: when an info event of the logger reaches the sink and the
latency is `d ≥ 0` nanoseconds, the record `Log` writes carries, among the
sixteen fields set from the entry, `latency in millis` once, with the whole
number `m` of milliseconds such that `m * 1,000,000 ≤ d < (m + 1) * 1,000,000`;
1,500,400,000 ns is recorded as 1500. -/
theorem Log_latency_millis (g : Globals) (rl : requestLogger) (e : Entry) (sink : List Record)
    (hw : rl.logger.writesInfo g "request received" = true) (hd : 0 ≤ e.Latency) :
    ∃ (r : Record) (logged : List Field) (m : Int),
      (requestLogger.Log g rl e sink).2 = sink ++ [r] ∧
      r.fields = rl.logger.context ++ logged ++
        (runHooks rl.logger.hooks InfoLevel "request received").1 ∧
      logged.length = 16 ∧
      logged.lookup "latency in millis" = some (.int64 m) ∧
      (logged.map Prod.fst).count "latency in millis" = 1 ∧
      ("latency in millis", FieldValue.int64 m) ∈ r.fields ∧
      m * 1000000 ≤ e.Latency ∧ e.Latency < (m + 1) * 1000000 ∧
      (e.Latency = 1500400000 → m = 1500) := by
  rw [Log_eq, if_pos hw]
  refine ⟨_, _, e.Latency.Milliseconds, rfl, rfl, rfl, rfl, ?_, ?_, ?_, ?_, ?_⟩
  · simp only [List.map]
    decide
  · simp
  · unfold Duration.Milliseconds
    rw [Int.tdiv_eq_ediv hd (by decide)]
    exact Int.ediv_mul_le e.Latency (by decide)
  · unfold Duration.Milliseconds
    rw [Int.tdiv_eq_ediv hd (by decide)]
    exact Int.lt_ediv_add_one_mul_self e.Latency (by decide)
  · intro h15
    unfold Duration.Milliseconds
    rw [h15]
    decide

/-- The sample entry took 1500.4 ms; the logger stamps its events through a
hook. -/
theorem Log_latency_millis_witness :
    Logger.writesInfo openGlobals { plainLogger InfoLevel with hooks := [timestampHook] }
      "request received" = true ∧
    0 ≤ sampleEntry.Latency ∧
    ∃ (r : Record) (logged : List Field) (m : Int),
      (requestLogger.Log openGlobals ⟨{ plainLogger InfoLevel with hooks := [timestampHook] }⟩
        sampleEntry []).2 = [] ++ [r] ∧
      r.fields = [] ++ logged ++
        (runHooks [timestampHook] InfoLevel "request received").1 ∧
      logged.length = 16 ∧
      logged.lookup "latency in millis" = some (.int64 m) ∧
      (logged.map Prod.fst).count "latency in millis" = 1 ∧
      ("latency in millis", FieldValue.int64 m) ∈ r.fields ∧
      m * 1000000 ≤ sampleEntry.Latency ∧ sampleEntry.Latency < (m + 1) * 1000000 ∧
      (sampleEntry.Latency = 1500400000 → m = 1500) :=
  ⟨by decide, by decide,
    Log_latency_millis openGlobals ⟨{ plainLogger InfoLevel with hooks := [timestampHook] }⟩
      sampleEntry [] (by decide) (by decide)⟩

/-- C3, as stated, fails: for the sample entry, whose response body size is
the sentinel -1, a logger of level `warn` writes no record, so both body-size
fields are omitted. -/
theorem Log_body_sizes_omitted :
    sampleEntry.ResponseBodySize = -1 ∧
    (requestLogger.Log openGlobals (newRequestLogger (plainLogger WarnLevel)) sampleEntry []).2
      = [] ∧
    ∀ r ∈ (requestLogger.Log openGlobals (newRequestLogger (plainLogger WarnLevel))
        sampleEntry []).2,
      r.fields.lookup "request_body_size" = none ∧
      r.fields.lookup "response_body_size" = none := by
  have h : (requestLogger.Log openGlobals (newRequestLogger (plainLogger WarnLevel))
      sampleEntry []).2 = [] := by
    rw [Log_eq]; rfl
  refine ⟨rfl, h, ?_⟩
  intro r hr
  rw [h] at hr
  cases hr

/-- C3, amended: when an info event of the logger reaches the sink, the
record `Log` writes carries, among the sixteen fields set from the entry,
`request_body_size` and `response_body_size`, each once, with exactly the
entry's values, whatever they are (the unknown-size sentinel -1, zero, any
negative number). -/
theorem Log_body_sizes (g : Globals) (rl : requestLogger) (e : Entry) (sink : List Record)
    (hw : rl.logger.writesInfo g "request received" = true) :
    ∃ (r : Record) (logged : List Field),
      (requestLogger.Log g rl e sink).2 = sink ++ [r] ∧
      r.fields = rl.logger.context ++ logged ++
        (runHooks rl.logger.hooks InfoLevel "request received").1 ∧
      logged.length = 16 ∧
      logged.lookup "request_body_size" = some (.int64 e.RequestBodySize) ∧
      logged.lookup "response_body_size" = some (.int64 e.ResponseBodySize) ∧
      (logged.map Prod.fst).count "request_body_size" = 1 ∧
      (logged.map Prod.fst).count "response_body_size" = 1 ∧
      ("request_body_size", FieldValue.int64 e.RequestBodySize) ∈ r.fields ∧
      ("response_body_size", FieldValue.int64 e.ResponseBodySize) ∈ r.fields := by
  rw [Log_eq, if_pos hw]
  refine ⟨_, _, rfl, rfl, rfl, rfl, rfl, ?_, ?_, ?_, ?_⟩
  · simp only [List.map]
    decide
  · simp only [List.map]
    decide
  · simp
  · simp

/-- The sample entry is a streamed response: its body size is the sentinel
-1, and that is the value recorded. -/
theorem Log_body_sizes_witness :
    (plainLogger DebugLevel).writesInfo openGlobals "request received" = true ∧
    sampleEntry.ResponseBodySize = -1 ∧
    ∃ (r : Record) (logged : List Field),
      (requestLogger.Log openGlobals ⟨plainLogger DebugLevel⟩ sampleEntry []).2 = [] ++ [r] ∧
      r.fields = (plainLogger DebugLevel).context ++ logged ++
        (runHooks (plainLogger DebugLevel).hooks InfoLevel "request received").1 ∧
      logged.length = 16 ∧
      logged.lookup "request_body_size" = some (.int64 sampleEntry.RequestBodySize) ∧
      logged.lookup "response_body_size" = some (.int64 sampleEntry.ResponseBodySize) ∧
      (logged.map Prod.fst).count "request_body_size" = 1 ∧
      (logged.map Prod.fst).count "response_body_size" = 1 ∧
      ("request_body_size", FieldValue.int64 sampleEntry.RequestBodySize) ∈ r.fields ∧
      ("response_body_size", FieldValue.int64 sampleEntry.ResponseBodySize) ∈ r.fields :=
  ⟨by decide, rfl,
    Log_body_sizes openGlobals ⟨plainLogger DebugLevel⟩ sampleEntry [] (by decide)⟩

/-- C4, as stated, fails: a request logger built from a logger of level
`warn` emits no record at all, even with the most permissive global level;
and one built from an info-level logger with `BasicSampler{N: 2}` emits a
record on its first call and none on its second. -/
theorem Log_warn_logger_emits_nothing :
    (requestLogger.Log openGlobals (newRequestLogger (plainLogger WarnLevel)) sampleEntry []).2
      = [] ∧
    (¬ ∃ r : Record,
      (requestLogger.Log openGlobals (newRequestLogger (plainLogger WarnLevel))
        sampleEntry []).2 = [] ++ [r]) ∧
    ((requestLogger.Log openGlobals
        (newRequestLogger { plainLogger InfoLevel with sampler := some (zerolog.BasicSampler 2 0) })
        sampleEntry []).2.length = 1 ∧
      (requestLogger.Log openGlobals
        (requestLogger.Log openGlobals
          (newRequestLogger
            { plainLogger InfoLevel with sampler := some (zerolog.BasicSampler 2 0) })
          sampleEntry []).1
        sampleEntry []).2 = []) := by
  have h : (requestLogger.Log openGlobals (newRequestLogger (plainLogger WarnLevel))
      sampleEntry []).2 = [] := by
    rw [Log_eq]; rfl
  refine ⟨h, ?_, ?_, ?_⟩
  · rintro ⟨r, hr⟩
    rw [h] at hr
    simp at hr
  · rw [Log_eq]; rfl
  · rw [Log_eq]; rfl

/-- C4, amended: one call to `Log` emits at most one record: exactly one when
the logger has a writer, its level and the global level are both at most
`info`, its sampler (when it has one and sampling is not disabled) keeps the
event and none of its hooks discards it; none otherwise. -/
theorem Log_emits_once_iff_info_enabled (g : Globals) (l : Logger) (e : Entry)
    (sink : List Record) :
    ((l.writesInfo g "request received" = true ∧
        ∃ r : Record, (requestLogger.Log g (newRequestLogger l) e sink).2 = sink ++ [r]) ∨
      (l.writesInfo g "request received" = false ∧
        (requestLogger.Log g (newRequestLogger l) e sink).2 = sink)) ∧
    (l.writesInfo g "request received" = true ↔
      l.hasWriter = true ∧ l.level ≤ InfoLevel ∧ g.level ≤ InfoLevel ∧
      (∀ s, l.sampler = some s →
        g.disableSampling = true ∨ (s.sample s.state InfoLevel).1 = true) ∧
      ∀ h ∈ l.hooks, (h InfoLevel "request received").discard = false) := by
  constructor
  · rw [Log_eq]
    by_cases h : (newRequestLogger l).logger.writesInfo g "request received" = true
    · rw [if_pos h]
      exact Or.inl ⟨h, _, rfl⟩
    · rw [if_neg h]
      exact Or.inr ⟨Bool.eq_false_iff.2 h, rfl⟩
  · unfold Logger.writesInfo
    cases hs : l.sampler with
    | none => simp [and_assoc]
    | some s => simp [and_assoc]

/-! ## appHealthChecks -/

/-- The checker `sqlhealth.New` returns is the one it has just allocated: it
wraps `db` and is polling. -/
theorem New_checker (db : DB) (w : World) :
    (sqlhealth.New db w).2.checkers[(sqlhealth.New db w).1]? = some ⟨db, .Polling⟩ := by
  simp [sqlhealth.New]

/-- After `Stop`, a checker that exists is stopped. -/
theorem Stop_state (c : CheckerRef) (w : World) (h : (w.checkerState c).isSome = true) :
    (sqlhealth.Stop c w).checkerState c = some .Stopped := by
  unfold World.checkerState at h
  unfold sqlhealth.Stop World.checkerState
  cases hc : w.checkers[c]? with
  | none => simp [hc] at h
  | some chk =>
    have hlt : c < w.checkers.length := by
      by_contra hge
      rw [List.getElem?_eq_none (Nat.le_of_not_lt hge)] at hc
      cases hc
    simp [List.getElem?_set, hlt]

/-- C5: for every datastore name and database handle, `appHealthChecks`
returns a list of exactly one checker, the one `sqlhealth.New` builds from
`db`: it wraps `db`, and no other checker is allocated. -/
theorem appHealthChecks_single_db_checker (n : Name) (db : DB) (w : World) :
    (appHealthChecks n db w).1.1.length = 1 ∧
    (appHealthChecks n db w).1.1 = [(sqlhealth.New db w).1] ∧
    (appHealthChecks n db w).2 = (sqlhealth.New db w).2 ∧
    (∀ c ∈ (appHealthChecks n db w).1.1,
      (appHealthChecks n db w).2.checkers[c]?.map (·.db) = some db) ∧
    (appHealthChecks n db w).2.checkers.length = w.checkers.length + 1 := by
  refine ⟨rfl, rfl, rfl, ?_, ?_⟩
  · intro c hc
    have hc2 : c = (sqlhealth.New db w).1 := by
      simpa [appHealthChecks] using hc
    have h2 : (appHealthChecks n db w).2 = (sqlhealth.New db w).2 := rfl
    rw [hc2, h2, New_checker]
    rfl
  · simp [appHealthChecks, sqlhealth.New]

/-- C6: every checker of the list `appHealthChecks` returns is polling once
construction is done, and is stopped once the returned cleanup has run, in
whatever later state `w2` the cleanup runs (a state that still holds the
checkers); none of them is left polling. -/
theorem appHealthChecks_cleanup_stops (n : Name) (db : DB) (w w2 : World)
    (hlive : ∀ c ∈ (appHealthChecks n db w).1.1, (w2.checkerState c).isSome = true) :
    (∀ c ∈ (appHealthChecks n db w).1.1,
      (appHealthChecks n db w).2.checkerState c = some .Polling) ∧
    (∀ c ∈ (appHealthChecks n db w).1.1,
      ((appHealthChecks n db w).1.2 w2).checkerState c = some .Stopped) ∧
    (∀ c ∈ (appHealthChecks n db w).1.1,
      ((appHealthChecks n db w).1.2 w2).checkerState c ≠ some .Polling) := by
  have hstop : ∀ c ∈ (appHealthChecks n db w).1.1,
      ((appHealthChecks n db w).1.2 w2).checkerState c = some .Stopped := by
    intro c hc
    have hl := hlive c hc
    have hc2 : c = (sqlhealth.New db w).1 := by
      simpa [appHealthChecks] using hc
    subst hc2
    exact Stop_state _ w2 hl
  refine ⟨?_, hstop, ?_⟩
  · intro c hc
    have hc2 : c = (sqlhealth.New db w).1 := by
      simpa [appHealthChecks] using hc
    have h2 : (appHealthChecks n db w).2 = (sqlhealth.New db w).2 := rfl
    rw [hc2, h2]
    unfold World.checkerState
    rw [New_checker]
    rfl
  · intro c hc
    rw [hstop c hc]
    decide

/-- The cleanup run right after construction, from an empty state. -/
theorem appHealthChecks_cleanup_stops_witness :
    (∀ c ∈ (appHealthChecks ⟨0⟩ ⟨1⟩ emptyWorld).1.1,
      ((appHealthChecks ⟨0⟩ ⟨1⟩ emptyWorld).2.checkerState c).isSome = true) ∧
    (∀ c ∈ (appHealthChecks ⟨0⟩ ⟨1⟩ emptyWorld).1.1,
      (appHealthChecks ⟨0⟩ ⟨1⟩ emptyWorld).2.checkerState c = some .Polling) ∧
    (∀ c ∈ (appHealthChecks ⟨0⟩ ⟨1⟩ emptyWorld).1.1,
      ((appHealthChecks ⟨0⟩ ⟨1⟩ emptyWorld).1.2
        (appHealthChecks ⟨0⟩ ⟨1⟩ emptyWorld).2).checkerState c = some .Stopped) ∧
    (∀ c ∈ (appHealthChecks ⟨0⟩ ⟨1⟩ emptyWorld).1.1,
      ((appHealthChecks ⟨0⟩ ⟨1⟩ emptyWorld).1.2
        (appHealthChecks ⟨0⟩ ⟨1⟩ emptyWorld).2).checkerState c ≠ some .Polling) :=
  ⟨by decide,
    appHealthChecks_cleanup_stops ⟨0⟩ ⟨1⟩ emptyWorld (appHealthChecks ⟨0⟩ ⟨1⟩ emptyWorld).2
      (by decide)⟩

/-- C10: `appHealthChecks` does not look at the datastore name: for two names
and the same handle and state it returns the same list, the same state and a
cleanup with the same effect on every state. -/
theorem appHealthChecks_ignores_name (n1 n2 : Name) (db : DB) (w : World) :
    (appHealthChecks n1 db w).1.1 = (appHealthChecks n2 db w).1.1 ∧
    (∀ w2 : World, (appHealthChecks n1 db w).1.2 w2 = (appHealthChecks n2 db w).1.2 w2) ∧
    (appHealthChecks n1 db w).2 = (appHealthChecks n2 db w).2 ∧
    appHealthChecks n1 db w = appHealthChecks n2 db w :=
  ⟨rfl, fun _ => rfl, rfl, rfl⟩

/-! ## the provider set -/

/-- C9: in the provider set of `setupApp`, every input type of every provider
is either produced by exactly one item of the set and is not a root, or is a
root and is produced by no item; no output type is produced twice. The
inputs of `appHealthChecks` are the datastore name (a root) and the database
handle (`datastore.NewDB` only); the input of `newRequestLogger` is the
logger (`app.NewLogger` only); `http.Handler`, `driver.Server`,
`requestlog.Logger` and `datastore.Datastorer` are each produced by exactly
one `wire.Bind`, from one concrete type. -/
theorem setupAppSet_single_source :
    (∀ p ∈ setupAppSet, ∀ t ∈ p.inputs,
      ((producers setupAppSet t).length = 1 ∧ t ∉ setupAppRoots) ∨
      (producers setupAppSet t = [] ∧ t ∈ setupAppRoots)) ∧
    (setupAppSet.map (·.output)).Nodup ∧
    (declAppHealthChecks ∈ setupAppSet ∧
      declAppHealthChecks.inputs = [.DatastoreName, .SqlDB] ∧
      Ty.DatastoreName ∈ setupAppRoots ∧ producers setupAppSet .DatastoreName = [] ∧
      Ty.SqlDB ∉ setupAppRoots ∧ producers setupAppSet .SqlDB = [declNewDB]) ∧
    (declNewRequestLogger ∈ setupAppSet ∧
      declNewRequestLogger.inputs = [.ZerologLogger] ∧
      Ty.ZerologLogger ∉ setupAppRoots ∧
      producers setupAppSet .ZerologLogger = [declNewLogger]) ∧
    (producers setupAppSet .HttpHandler = [declBindHttpHandler] ∧
      declBindHttpHandler.kind = .bind ∧ declBindHttpHandler.inputs = [.MuxRouter]) ∧
    (producers setupAppSet .DriverServer = [declBindDriverServer] ∧
      declBindDriverServer.kind = .bind ∧ declBindDriverServer.inputs = [.DefaultDriver]) ∧
    (producers setupAppSet .RequestlogLogger = [declBindRequestlogLogger] ∧
      declBindRequestlogLogger.kind = .bind ∧
      declBindRequestlogLogger.inputs = [.RequestLoggerPtr]) ∧
    (producers setupAppSet .Datastorer = [declBindDatastorer] ∧
      declBindDatastorer.kind = .bind ∧ declBindDatastorer.inputs = [.Datastore]) ∧
    (setupAppSet.filter fun p => p.kind = .bind).length = 4 := by
  decide

/-! ## setupApp -/

/-- Resolution of the provider set succeeds, with `setupAppOrder`. -/
theorem resolve_setupAppSet : resolve setupAppRoots setupAppSet = .ok setupAppOrder := by
  rfl

/-- Construction over a concatenated order runs the first part, then the
second from where the first stopped. -/
theorem construct_append (host : Host) (l1 l2 : List Decl) (env : List Val)
    (chain : List Registered) (w : World) :
    construct host (l1 ++ l2) env chain w =
      match construct host l1 env chain w with
      | .error e => .error e
      | .ok (env1, chain1, w1) => construct host l2 env1 chain1 w1 := by
  induction l1 generalizing env chain w with
  | nil => rfl
  | cons p ps ih =>
    simp only [List.cons_append, construct]
    cases hg : gatherArgs env p.inputs with
    | error e => rfl
    | ok args =>
      dsimp only
      cases hr : runProvider host p.id args w with
      | error e => rfl
      | ok r =>
        obtain ⟨v, c, w1⟩ := r
        cases c with
        | none => exact ih _ _ _
        | some c => exact ih _ _ _

/-- The call of `datastore.NewDB`. -/
theorem runProvider_NewDB (host : Host) (n : PGDatasourceName) (w : World) :
    runProvider host .NewDB [.pgDatasourceName n] w =
      match host.openDB n with
      | .ok db =>
        .ok (.sqlDB db, some (releaseDB db), { w with trace := w.trace ++ [.dbOpened db] })
      | .error msg => .error (.ProviderFailed .NewDB msg) := rfl

/-- What `setupApp` computes: it fails exactly when the database cannot be
opened, and otherwise returns the server assembled from the providers, with
the cleanup of the health checks in front of the release of the handle. -/
theorem setupApp_eq (host : Host) (ctx : Context) (envName : EnvName) (dsName : Name)
    (loglvl : Level) (w : World) :
    setupApp host ctx envName dsName loglvl w =
      match host.openDB (host.NewPGDatasourceName dsName) with
      | .error msg => .error (.ProviderFailed .NewDB msg)
      | .ok db =>
        .ok (server.New (some ⟨⟨⟨envName, some ⟨db⟩, host.NewLogger loglvl⟩⟩⟩)
              ⟨some (newRequestLogger (host.NewLogger loglvl)),
               (appHealthChecks dsName db { w with trace := w.trace ++ [.dbOpened db] }).1.1,
               none, trace.AlwaysSample, some server.NewDefaultDriver⟩,
             [(.appHealthChecks,
                (appHealthChecks dsName db { w with trace := w.trace ++ [.dbOpened db] }).1.2),
              (.NewDB, releaseDB db)],
             (appHealthChecks dsName db { w with trace := w.trace ++ [.dbOpened db] }).2) := by
  unfold setupApp
  rw [resolve_setupAppSet]
  dsimp only
  have hsplit : setupAppOrder =
      [declExporterValue, declAlwaysSample, declNewDefaultDriver, declBindDriverServer,
        declNewLogger, declNewRequestLogger, declBindRequestlogLogger,
        declNewPGDatasourceName] ++
      ([declNewDB] ++
        [declAppHealthChecks, declOptionsStruct, declNewDatastore, declBindDatastorer,
          declNewApplication, declNewAppHandler, declNewRouter, declBindHttpHandler,
          declServerNew]) := rfl
  rw [hsplit, construct_append]
  have hpre : construct host
      [declExporterValue, declAlwaysSample, declNewDefaultDriver, declBindDriverServer,
        declNewLogger, declNewRequestLogger, declBindRequestlogLogger,
        declNewPGDatasourceName]
      [.context ctx, .envName envName, .datastoreName dsName, .zerologLevel loglvl] [] w =
      .ok ([.context ctx, .envName envName, .datastoreName dsName, .zerologLevel loglvl,
            .traceExporter none, .traceSampler trace.AlwaysSample,
            .defaultDriver server.NewDefaultDriver, .driverServer (some server.NewDefaultDriver),
            .zerologLogger (host.NewLogger loglvl),
            .requestLoggerPtr (newRequestLogger (host.NewLogger loglvl)),
            .requestlogLogger (some (newRequestLogger (host.NewLogger loglvl))),
            .pgDatasourceName (host.NewPGDatasourceName dsName)], [], w) := rfl
  rw [hpre]
  dsimp only
  rw [construct_append]
  have hstep : construct host [declNewDB]
      [.context ctx, .envName envName, .datastoreName dsName, .zerologLevel loglvl,
            .traceExporter none, .traceSampler trace.AlwaysSample,
            .defaultDriver server.NewDefaultDriver, .driverServer (some server.NewDefaultDriver),
            .zerologLogger (host.NewLogger loglvl),
            .requestLoggerPtr (newRequestLogger (host.NewLogger loglvl)),
            .requestlogLogger (some (newRequestLogger (host.NewLogger loglvl))),
            .pgDatasourceName (host.NewPGDatasourceName dsName)] [] w =
      match runProvider host .NewDB [.pgDatasourceName (host.NewPGDatasourceName dsName)] w with
      | .error e => .error e
      | .ok (v, none, w1) =>
        .ok ([.context ctx, .envName envName, .datastoreName dsName, .zerologLevel loglvl,
            .traceExporter none, .traceSampler trace.AlwaysSample,
            .defaultDriver server.NewDefaultDriver, .driverServer (some server.NewDefaultDriver),
            .zerologLogger (host.NewLogger loglvl),
            .requestLoggerPtr (newRequestLogger (host.NewLogger loglvl)),
            .requestlogLogger (some (newRequestLogger (host.NewLogger loglvl))),
            .pgDatasourceName (host.NewPGDatasourceName dsName), v], [], w1)
      | .ok (v, some c, w1) =>
        .ok ([.context ctx, .envName envName, .datastoreName dsName, .zerologLevel loglvl,
            .traceExporter none, .traceSampler trace.AlwaysSample,
            .defaultDriver server.NewDefaultDriver, .driverServer (some server.NewDefaultDriver),
            .zerologLogger (host.NewLogger loglvl),
            .requestLoggerPtr (newRequestLogger (host.NewLogger loglvl)),
            .requestlogLogger (some (newRequestLogger (host.NewLogger loglvl))),
            .pgDatasourceName (host.NewPGDatasourceName dsName), v], [(.NewDB, c)], w1) := rfl
  rw [hstep, runProvider_NewDB]
  cases host.openDB (host.NewPGDatasourceName dsName) with
  | error msg => rfl
  | ok db => rfl

/-- In a valid construction order, an input that is not available at the
start is produced by a provider placed before the one that consumes it. -/
theorem validOrder_source_before (order : List Decl) (avail : List Ty) (q : Decl) (t : Ty)
    (hvalid : validOrder avail order = true) (hq : q ∈ order) (ht : t ∈ q.inputs)
    (hna : t ∉ avail) :
    ∃ l1 p l2, order = l1 ++ p :: l2 ∧ p.output = t ∧ q ∈ l2 := by
  induction order generalizing avail with
  | nil => cases hq
  | cons a rest ih =>
    simp only [validOrder, Bool.and_eq_true] at hvalid
    obtain ⟨hel, hrest⟩ := hvalid
    rcases List.mem_cons.1 hq with hqa | hqr
    · subst hqa
      have hall := List.all_eq_true.1 hel t ht
      exact absurd (of_decide_eq_true hall) hna
    · by_cases hout : a.output = t
      · exact ⟨[], a, rest, rfl, hout, hqr⟩
      · have hna2 : t ∉ avail ++ [a.output] := by
          intro hmem
          rcases List.mem_append.1 hmem with h1 | h1
          · exact hna h1
          · exact hout (List.mem_singleton.1 h1).symm
        obtain ⟨l1, p, l2, hsplit, hp, hq2⟩ := ih (avail ++ [a.output]) hrest hqr hna2
        exact ⟨a :: l1, p, l2, by rw [hsplit]; rfl, hp, hq2⟩

/-- C8: whenever the database opens, `setupApp` returns a server whose
configuration has the nil trace exporter, the sampling policy
`trace.AlwaysSample` (which samples every span), the request logger
`newRequestLogger` builds from the logger of `app.NewLogger`, and the checker
list `appHealthChecks` returns, for all root values. -/
theorem setupApp_server_options (host : Host) (ctx : Context) (envName : EnvName)
    (dsName : Name) (loglvl : Level) (w : World) (db : DB)
    (hdb : host.openDB (host.NewPGDatasourceName dsName) = .ok db) :
    ∃ (srv : Server) (chain : List Registered) (w1 : World),
      setupApp host ctx envName dsName loglvl w = .ok (srv, chain, w1) ∧
      srv.options.TraceExporter = none ∧
      srv.options.DefaultSamplingPolicy = trace.AlwaysSample ∧
      (∀ p : SamplingParameters, (srv.options.DefaultSamplingPolicy p).Sample = true) ∧
      srv.options.RequestLogger = some (newRequestLogger (host.NewLogger loglvl)) ∧
      srv.options.HealthChecks =
        (appHealthChecks dsName db { w with trace := w.trace ++ [.dbOpened db] }).1.1 ∧
      srv.options.Driver = some server.NewDefaultDriver := by
  rw [setupApp_eq, hdb]
  exact ⟨_, _, _, rfl, rfl, rfl, fun _ => rfl, rfl, rfl, rfl⟩

/-- A host whose database opens, at log level `warn`. -/
theorem setupApp_server_options_witness :
    sampleHost.openDB (sampleHost.NewPGDatasourceName ⟨0⟩) = .ok ⟨1⟩ ∧
    ∃ (srv : Server) (chain : List Registered) (w1 : World),
      setupApp sampleHost ⟨0⟩ ⟨0⟩ ⟨0⟩ WarnLevel emptyWorld = .ok (srv, chain, w1) ∧
      srv.options.TraceExporter = none ∧
      srv.options.DefaultSamplingPolicy = trace.AlwaysSample ∧
      (∀ p : SamplingParameters, (srv.options.DefaultSamplingPolicy p).Sample = true) ∧
      srv.options.RequestLogger = some (newRequestLogger (sampleHost.NewLogger WarnLevel)) ∧
      srv.options.HealthChecks =
        (appHealthChecks ⟨0⟩ ⟨1⟩
          { emptyWorld with trace := emptyWorld.trace ++ [.dbOpened ⟨1⟩] }).1.1 ∧
      srv.options.Driver = some server.NewDefaultDriver :=
  ⟨rfl, setupApp_server_options sampleHost ⟨0⟩ ⟨0⟩ ⟨0⟩ WarnLevel emptyWorld ⟨1⟩ rfl⟩

/-- In every valid construction order of the provider set, `datastore.NewDB`
comes before `appHealthChecks`, and these two are the only providers that
register a cleanup. -/
theorem valid_order_cleanups (order : List Decl) (hperm : order.Perm setupAppSet)
    (hvalid : validOrder setupAppRoots order = true) :
    (∃ l1 l2, order = l1 ++ declNewDB :: l2 ∧ declAppHealthChecks ∈ l2) ∧
    order.filter (·.cleanup) = [declNewDB, declAppHealthChecks] := by
  have hmem : declAppHealthChecks ∈ order := hperm.mem_iff.2 (by decide)
  obtain ⟨l1, p, l2, hsplit, hp, hq⟩ :=
    validOrder_source_before order setupAppRoots declAppHealthChecks .SqlDB hvalid hmem
      (by decide) (by decide)
  have hpmem : p ∈ setupAppSet := hperm.mem_iff.1 (by rw [hsplit]; simp)
  have honly : ∀ d ∈ setupAppSet, d.output = .SqlDB → d = declNewDB := by decide
  have hpdb : p = declNewDB := honly p hpmem hp
  subst hpdb
  refine ⟨⟨l1, l2, hsplit, hq⟩, ?_⟩
  show order.filter Decl.cleanup = [declNewDB, declAppHealthChecks]
  have hfilter : setupAppSet.filter Decl.cleanup = [declAppHealthChecks, declNewDB] := by decide
  have hf : (order.filter Decl.cleanup).Perm [declAppHealthChecks, declNewDB] := by
    rw [← hfilter]
    exact hperm.filter _
  have hlen := hf.length_eq
  have hq2 : declAppHealthChecks ∈ l2.filter Decl.cleanup :=
    List.mem_filter.2 ⟨hq, rfl⟩
  have hcl : declNewDB.cleanup = true := rfl
  rw [hsplit, List.filter_append, List.filter_cons_of_pos hcl] at hlen ⊢
  simp only [List.length_append, List.length_cons, List.length_nil] at hlen
  have hpos : 0 < (l2.filter Decl.cleanup).length := List.length_pos_of_mem hq2
  have h1 : (l1.filter Decl.cleanup).length = 0 := by omega
  have h2 : (l2.filter Decl.cleanup).length = 1 := by omega
  rw [List.length_eq_zero] at h1
  obtain ⟨x, hx⟩ := List.length_eq_one.1 h2
  rw [hx] at hq2
  have hxe : declAppHealthChecks = x := List.mem_singleton.1 hq2
  rw [h1, hx, ← hxe]
  rfl

/-- The order the builder finds is a valid construction order of the set. -/
theorem setupAppOrder_valid :
    setupAppOrder.Perm setupAppSet ∧ validOrder setupAppRoots setupAppOrder = true := by
  constructor
  · decide
  · decide

/-- C7: when the database opens, the teardown chain `setupApp` returns lists
the registered cleanups in reverse construction order: the cleanup of
`appHealthChecks`, then the release of the database handle; running it stops
the health checker first and releases the handle last. The same holds for
every valid construction order of the provider set, because in each of them
`datastore.NewDB` is placed before `appHealthChecks`. -/
theorem setupApp_teardown_reverse_order (host : Host) (ctx : Context) (envName : EnvName)
    (dsName : Name) (loglvl : Level) (w : World) (db : DB) (order : List Decl)
    (hdb : host.openDB (host.NewPGDatasourceName dsName) = .ok db)
    (hperm : order.Perm setupAppSet) (hvalid : validOrder setupAppRoots order = true) :
    (∃ l1 l2, order = l1 ++ declNewDB :: l2 ∧ declAppHealthChecks ∈ l2) ∧
    ((order.filter (·.cleanup)).map (·.id)).reverse = [.appHealthChecks, .NewDB] ∧
    teardownOrder order = [.appHealthChecks, .NewDB] ∧
    ∃ (order0 : List Decl) (srv : Server) (chain : List Registered) (w1 : World)
        (c : CheckerRef),
      resolve setupAppRoots setupAppSet = .ok order0 ∧
      order0.Perm setupAppSet ∧ validOrder setupAppRoots order0 = true ∧
      setupApp host ctx envName dsName loglvl w = .ok (srv, chain, w1) ∧
      chain.map Prod.fst = ((order0.filter (·.cleanup)).map (·.id)).reverse ∧
      chain.map Prod.fst = [.appHealthChecks, .NewDB] ∧
      srv.options.HealthChecks = [c] ∧
      w1.checkerState c = some .Polling ∧
      (runTeardown chain w1).checkerState c = some .Stopped ∧
      (runTeardown chain w1).trace = w1.trace ++ [.checkerStopped c, .dbReleased db] := by
  obtain ⟨hbefore, hfil⟩ := valid_order_cleanups order hperm hvalid
  refine ⟨hbefore, ?_, ?_, ?_⟩
  · rw [hfil]
    rfl
  · unfold teardownOrder
    rw [hfil]
    rfl
  · have hrun := setupApp_eq host ctx envName dsName loglvl w
    rw [hdb] at hrun
    dsimp only at hrun
    refine ⟨setupAppOrder, _, _, _, w.checkers.length, resolve_setupAppSet,
      setupAppOrder_valid.1, setupAppOrder_valid.2, hrun, ?_, ?_, ?_, ?_, ?_, ?_⟩
    · rfl
    · rfl
    · rfl
    · simp [appHealthChecks, sqlhealth.New, World.checkerState]
    · simp [appHealthChecks, sqlhealth.New, sqlhealth.Stop, World.checkerState, runTeardown,
        releaseDB]
    · simp [appHealthChecks, sqlhealth.New, sqlhealth.Stop, runTeardown, releaseDB]

/-- The order found by the builder, on a host whose database opens. -/
theorem setupApp_teardown_reverse_order_witness :
    sampleHost.openDB (sampleHost.NewPGDatasourceName ⟨0⟩) = .ok ⟨1⟩ ∧
    setupAppOrder.Perm setupAppSet ∧ validOrder setupAppRoots setupAppOrder = true ∧
    (∃ l1 l2, setupAppOrder = l1 ++ declNewDB :: l2 ∧ declAppHealthChecks ∈ l2) ∧
    ((setupAppOrder.filter (·.cleanup)).map (·.id)).reverse = [.appHealthChecks, .NewDB] ∧
    teardownOrder setupAppOrder = [.appHealthChecks, .NewDB] ∧
    ∃ (order0 : List Decl) (srv : Server) (chain : List Registered) (w1 : World)
        (c : CheckerRef),
      resolve setupAppRoots setupAppSet = .ok order0 ∧
      order0.Perm setupAppSet ∧ validOrder setupAppRoots order0 = true ∧
      setupApp sampleHost ⟨0⟩ ⟨0⟩ ⟨0⟩ WarnLevel emptyWorld = .ok (srv, chain, w1) ∧
      chain.map Prod.fst = ((order0.filter (·.cleanup)).map (·.id)).reverse ∧
      chain.map Prod.fst = [.appHealthChecks, .NewDB] ∧
      srv.options.HealthChecks = [c] ∧
      w1.checkerState c = some .Polling ∧
      (runTeardown chain w1).checkerState c = some .Stopped ∧
      (runTeardown chain w1).trace = w1.trace ++ [.checkerStopped c, .dbReleased ⟨1⟩] :=
  ⟨rfl, setupAppOrder_valid.1, setupAppOrder_valid.2,
    setupApp_teardown_reverse_order sampleHost ⟨0⟩ ⟨0⟩ ⟨0⟩ WarnLevel emptyWorld ⟨1⟩
      setupAppOrder rfl setupAppOrder_valid.1 setupAppOrder_valid.2⟩

end GoApiBasic
